import Mathlib

/-!
Shallow embedding of the output-synthesis core of the EOSIO-flavored
WebAssembly linker (`wasm/Writer.cpp`), together with proofs about the
properties stated in its specification.

The emitters that synthesize WebAssembly function bodies are modelled at
the instruction level: every `writeU8(os, OPCODE_*)` together with the
immediates that follow it in the source becomes one constructor of
`CdtLld.Instr`.  The immediates carried by the constructors are exactly the
values the source passes to `writeUleb128`/`encodeSLEB128` (64-bit values
are kept as their unsigned bit patterns).  One place in the source writes
an operand with `writeU8` where the encoding requires a ULEB128; that spot
is additionally modelled at the byte level (see `canaryTimeCallBytes`).

A small executable semantics (`CdtLld.exec`) runs emitted instruction
lists: blocks here are all of the empty block type `0x40`, so `END` is a
no-op at run time, `ELSE` switches to skipping until the matching `END`,
and a false `IF` skips until the matching `ELSE`/`END`.  Host functions
(`current_time`, `eosio_assert_code`, dispatch targets, ...) are an oracle
(`CdtLld.HostEnv`); each call is recorded as an event so that theorems can
speak about which runtime helpers get invoked.
-/

namespace CdtLld

/-- Truncation to a 32-bit machine word (`uint32_t` arithmetic). -/
def w32 (n : Nat) : Nat := n % 2 ^ 32

/-- Truncation to a 64-bit machine word (`uint64_t` arithmetic). -/
def w64 (n : Nat) : Nat := n % 2 ^ 64

/-- Unsigned 64-bit bit pattern of a signed 64-bit integer (two's complement). -/
def toU64 (i : Int) : Nat := (i % (2 ^ 64 : Int)).toNat

/-- Signed reading of a 64-bit pattern. -/
def toI64 (n : Nat) : Int := if n < 2 ^ 63 then (n : Int) else (n : Int) - 2 ^ 64

/-- `llvm::alignTo`: round `v` up to the next multiple of `a` (`a > 0`). -/
def alignTo (v a : Nat) : Nat := ((v + a - 1) / a) * a

/-- Standard ULEB128 encoding of a natural number, as the list of its bytes. -/
def uleb128 (n : Nat) : List Nat :=
  if h : n < 128 then [n]
  else (n % 128 + 128) :: uleb128 (n / 128)
decreasing_by exact Nat.div_lt_self (by omega) (by omega)

/-- `writeU8` truncates its argument to a single byte (`uint8_t` cast). -/
def writeU8byte (n : Nat) : Nat := n % 256

/-- Opcode of the wasm `call` instruction (`OPCODE_CALL` in the source). -/
def OPCODE_CALL : Nat := 0x10

/--
The two bytes emitted for the `call current_time` of the stack-canary
prologue: `writeU8(OS, OPCODE_CALL); writeU8(OS, time_idx)` (Writer.cpp,
both dispatchers).  The function-index operand is written as one raw byte.
-/
def canaryTimeCallBytes (timeIdx : Nat) : List Nat :=
  [writeU8byte OPCODE_CALL, writeU8byte timeIdx]

/-- Error-code base used by the dispatcher (`EOSIO_COMPILER_ERROR_BASE`). -/
def EOSIO_COMPILER_ERROR_BASE : Nat := 8000000000000000000

/-- Error code asserted when no action matches (`EOSIO_ERROR_NO_ACTION`). -/
def EOSIO_ERROR_NO_ACTION : Nat := EOSIO_COMPILER_ERROR_BASE

/-- Error code asserted for an unhandled `eosio::onerror` notification. -/
def EOSIO_ERROR_ONERROR : Nat := EOSIO_COMPILER_ERROR_BASE + 1

/-- Error code asserted when the stack canary check fails. -/
def EOSIO_CANARY_FAILURE : Nat := EOSIO_COMPILER_ERROR_BASE + 2

/-- Status returned by the sync-call entry point on success. -/
def SYNC_CALL_EXECUTED : Int := 0

/-- Status returned when the sync-call header version is unsupported. -/
def SYNC_CALL_UNSUPPORTED_HEADER_VERSION : Int := -10000

/-- Status returned when no registered sync call matches. -/
def SYNC_CALL_UNKNOWN_FUNCTION : Int := -10001

/--
Modelled from the spec: `eosio::cdt::string_to_name` (the shared utility
header `eosio/utils.hpp` is not part of this repository).  Base-32 alphabet
`.12345abcdefghijklmnopqrstuvwxyz`, five bits per character, up to 12
characters packed MSB-first into the high 60 bits, plus a 13th character
contributing only its low 4 bits.
-/
def charToSymbol (c : Char) : Nat :=
  if 'a' ≤ c ∧ c ≤ 'z' then c.toNat - 'a'.toNat + 6
  else if '1' ≤ c ∧ c ≤ '5' then c.toNat - '1'.toNat + 1
  else 0

/-- Modelled from the spec: the EOSIO 64-bit name encoding of a string. -/
def string_to_name (s : String) : Nat :=
  (List.range 13).foldl (fun value i =>
    let cs := s.data
    let c := if h : i < cs.length then charToSymbol (cs.get ⟨i, h⟩) else 0
    if i < 12 then value ||| ((c &&& 31) <<< (64 - 5 * (i + 1)))
    else value ||| (c &&& 15)) 0

/--
The part of a registered action/call/handler string before the first colon
(`str.substr(0, str.find(":"))` in the source).
-/
def nameOf (s : String) : String := ⟨s.data.takeWhile (fun c => c ≠ ':')⟩

/--
The part after the first colon (`str.substr(str.find(":")+1)`); when there
is no colon, `find` yields `npos` and `npos + 1` wraps to `0`, so the C++
code returns the whole string.
-/
def fnOf (s : String) : String :=
  match s.data.dropWhile (fun c => c ≠ ':') with
  | [] => s
  | _ :: t => ⟨t⟩

/-- Worker for `dedupFirst`: `seen` is the contents of the `std::set`. -/
def dedupGo (seen : List String) : List String → List String
  | [] => []
  | a :: as => if a ∈ seen then dedupGo seen as else a :: dedupGo (a :: seen) as

/--
First-occurrence deduplication, as performed by the
`has_dispatched.insert(x).second` pattern in the dispatcher emitters.
-/
def dedupFirst (l : List String) : List String := dedupGo [] l

/-- Instruction-level view of the bytecode the Writer emits. -/
inductive Instr where
  | i32const (n : Nat)
  | i64const (n : Nat)
  | getLocal (i : Nat)
  | setLocal (i : Nat)
  | getGlobal (i : Nat)
  | setGlobal (i : Nat)
  | i32add
  | i64eq
  | i64ne
  | i32load (align offset : Nat)
  | i64load (align offset : Nat)
  | i64store (align offset : Nat)
  | call (idx : Nat)
  | ifv
  | elsev
  | endv
  | retv
  deriving DecidableEq, Repr

/-- A call event recorded when the emitted code invokes a function index. -/
inductive Event where
  | call (idx : Nat) (args : List Nat)
  deriving DecidableEq, Repr

/-- Machine state for running emitted bodies. -/
structure St where
  stack : List Nat
  locals : Nat → Nat
  globals : Nat → Nat
  mem : Nat → Nat
  events : List Event

/-- Host oracle: arity, result presence and result value per function index. -/
structure HostEnv where
  arity : Nat → Nat
  hasRet : Nat → Bool
  ret : Nat → List Nat → Nat

/-- Execution mode: running, or skipping to a matching `ELSE`/`END`. -/
inductive Mode where
  | run
  | skipElse (d : Nat)
  | skipEnd (d : Nat)
  deriving DecidableEq, Repr

/-- Result of running a body: returned value (top of stack) and final state. -/
inductive Outcome where
  | done (res : Option Nat) (st : St)
  | trap

/--
Executable semantics of the emitted instruction lists.  All blocks emitted
by the Writer have block type `0x40` (no result), so `END` is a no-op when
running; a false `IF` skips to the matching `ELSE` or `END`; an `ELSE`
reached while running skips to the matching `END`.  Falling off the end of
the body (its final `END`) returns the top of the stack, as does `RETURN`.
-/
def exec (env : HostEnv) : List Instr → Mode → St → Outcome
  | [], m, st => match m with
    | .run => .done st.stack.head? st
    | _ => .trap
  | i :: rest, .skipElse d, st =>
    match i with
    | .ifv => exec env rest (.skipElse (d + 1)) st
    | .elsev => if d = 0 then exec env rest .run st else exec env rest (.skipElse d) st
    | .endv => if d = 0 then exec env rest .run st else exec env rest (.skipElse (d - 1)) st
    | _ => exec env rest (.skipElse d) st
  | i :: rest, .skipEnd d, st =>
    match i with
    | .ifv => exec env rest (.skipEnd (d + 1)) st
    | .endv => if d = 0 then exec env rest .run st else exec env rest (.skipEnd (d - 1)) st
    | _ => exec env rest (.skipEnd d) st
  | i :: rest, .run, st =>
    match i with
    | .i32const n => exec env rest .run { st with stack := w32 n :: st.stack }
    | .i64const n => exec env rest .run { st with stack := w64 n :: st.stack }
    | .getLocal j => exec env rest .run { st with stack := st.locals j :: st.stack }
    | .setLocal j =>
      match st.stack with
      | v :: s => exec env rest .run
          { st with stack := s, locals := fun k => if k = j then v else st.locals k }
      | [] => .trap
    | .getGlobal j => exec env rest .run { st with stack := st.globals j :: st.stack }
    | .setGlobal j =>
      match st.stack with
      | v :: s => exec env rest .run
          { st with stack := s, globals := fun k => if k = j then v else st.globals k }
      | [] => .trap
    | .i32add =>
      match st.stack with
      | a :: b :: s => exec env rest .run { st with stack := w32 (b + a) :: s }
      | _ => .trap
    | .i64eq =>
      match st.stack with
      | a :: b :: s => exec env rest .run { st with stack := (if b = a then 1 else 0) :: s }
      | _ => .trap
    | .i64ne =>
      match st.stack with
      | a :: b :: s => exec env rest .run { st with stack := (if b = a then 0 else 1) :: s }
      | _ => .trap
    | .i32load _ off =>
      match st.stack with
      | a :: s => exec env rest .run { st with stack := w32 (st.mem (a + off)) :: s }
      | [] => .trap
    | .i64load _ off =>
      match st.stack with
      | a :: s => exec env rest .run { st with stack := w64 (st.mem (a + off)) :: s }
      | [] => .trap
    | .i64store _ off =>
      match st.stack with
      | v :: a :: s => exec env rest .run
          { st with stack := s, mem := fun k => if k = a + off then v else st.mem k }
      | _ => .trap
    | .call j =>
      let n := env.arity j
      if n ≤ st.stack.length then
        let args := (st.stack.take n).reverse
        let st1 : St := { st with stack := st.stack.drop n,
                                  events := st.events ++ [Event.call j args] }
        if env.hasRet j then
          exec env rest .run { st1 with stack := w64 (env.ret j args) :: st1.stack }
        else exec env rest .run st1
      else .trap
    | .ifv =>
      match st.stack with
      | c :: s =>
        if c = 0 then exec env rest (.skipElse 0) { st with stack := s }
        else exec env rest .run { st with stack := s }
      | [] => .trap
    | .elsev => exec env rest (.skipEnd 0) st
    | .endv => exec env rest .run st
    | .retv => .done st.stack.head? st

/-- An input data segment: name, liveness (and nothing else the claims need). -/
structure InputSegM where
  name : String
  live : Bool
  deriving DecidableEq, Repr

/--
The per-object data the Writer reads: declared actions
(`name:function`), notification handlers (`code::action:function`),
sync calls (`name:function`), the object's ABI JSON string and its input
segments.
-/
structure ObjFileM where
  actions : List String
  notifies : List String
  calls : List String
  abi : String
  segments : List InputSegM
  deriving Repr

/-- Character-list worker for `strBegins`. -/
def listBegins : List Char → List Char → Bool
  | [], _ => true
  | _ :: _, [] => false
  | a :: as, b :: bs => a = b && listBegins as bs

/-- `llvm::StringRef::startswith p s`: does `s` begin with `p`? -/
def strBegins (p s : String) : Bool := listBegins p.data s.data

/-- `getOutputDataSegmentName` (Writer.cpp): canonical output-segment name. -/
def getOutputDataSegmentName (isPic mergeDataSegments : Bool) (name : String) : String :=
  if isPic then ".data"
  else if strBegins ".tdata" name || strBegins ".tbss" name then ".tdata"
  else if !mergeDataSegments then name
  else if strBegins ".text." name then ".text"
  else if strBegins ".data." name then ".data"
  else if strBegins ".bss." name then ".bss"
  else if strBegins ".rodata." name then ".rodata"
  else name

/--
The spec's wording of the name-canonicalization rules, for comparison with
the source function: (1) PIC forces `.data`; (2) `.tdata`/`.tbss` prefixes
force `.tdata`; (3) with merging enabled, `.text.`/`.data.`/`.bss.`/`.rodata.`
prefixes map to the bare section name; (4) otherwise pass through.
-/
def segNameSpec (isPic mergeDataSegments : Bool) (name : String) : String :=
  if isPic then ".data"
  else if strBegins ".tdata" name || strBegins ".tbss" name then ".tdata"
  else if mergeDataSegments then
    if strBegins ".text." name then ".text"
    else if strBegins ".data." name then ".data"
    else if strBegins ".bss." name then ".bss"
    else if strBegins ".rodata." name then ".rodata"
    else name
  else name

/-- An output segment under construction (`OutputSegment`). -/
structure OutSeg where
  name : String
  index : Nat
  passive : Bool
  inputs : List InputSegM
  deriving DecidableEq, Repr

/-- Accumulated state of `createOutputSegments`: ABI list and segment list. -/
structure CosState where
  abis : List String
  segments : List OutSeg
  deriving Repr

/-- The configuration bits `createOutputSegments` consults. -/
structure CosCfg where
  isPic : Bool
  mergeDataSegments : Bool
  passiveSegments : Bool
  deriving Repr

/--
Process one input segment (`createOutputSegments` loop body): skip dead
segments; look the canonical name up in `segmentMap`; on a miss create a
fresh output segment whose passive flag is set iff the passive-segments
config is on or the output name is `.tdata`; then append the input segment.
-/
def cosProcessSeg (cfg : CosCfg) (st : CosState) (iseg : InputSegM) : CosState :=
  if !iseg.live then st
  else
    let name := getOutputDataSegmentName cfg.isPic cfg.mergeDataSegments iseg.name
    match st.segments.find? (fun s => s.name = name) with
    | some _ =>
      { st with segments := st.segments.map (fun s =>
          if s.name = name then { s with inputs := s.inputs ++ [iseg] } else s) }
    | none =>
      { st with segments := st.segments ++
          [{ name := name, index := st.segments.length,
             passive := cfg.passiveSegments || name = ".tdata",
             inputs := [iseg] }] }

/--
`Writer::createOutputSegments`: per object file, collect a non-empty ABI
string and fold every input segment through `cosProcessSeg`.
-/
def createOutputSegments (cfg : CosCfg) (files : List ObjFileM) : CosState :=
  files.foldl (fun st f =>
    let st1 := if f.abi ≠ "" then { st with abis := st.abis ++ [f.abi] } else st
    f.segments.foldl (cosProcessSeg cfg) st1)
    { abis := [], segments := [] }

/--
Modelled from the spec: `llvm::sys::path::replace_extension(path, ".abi")`
(LLVM's path library is not part of this repository).  The extension —
everything from the last `.` of the final path component — is replaced by
`.abi`; a component without a `.` gets `.abi` appended.
-/
def replaceExtensionAbi (p : String) : String :=
  match (p.data.reverse.dropWhile (fun c => c ≠ '.' ∧ c ≠ '/')) with
  | '.' :: rest => (⟨rest.reverse⟩ : String) ++ ".abi"
  | _ => p ++ ".abi"

/-- Result of `Writer::writeABI`. -/
inductive AbiResult where
  | skipped
  | wrote (path : String) (contents : String)
  | warned
  | fatal
  deriving Repr

/--
`Writer::writeABI`, with the black-box merger abstracted: `parse` is
`ojson::parse` (`none` models a thrown `jsoncons::json_exception`, which
the source catches and degrades to a log warning), `merge` is
`ABIMerger::merge` composed with `set_abi`, and `toStr` is
`get_abi_string`.  An empty ABI list returns without writing.  Otherwise
the merger is seeded with the parse of the *last* ABI and every ABI in the
list (the seed included) is folded through `merge`; the result is written
to the output path with its extension replaced by `.abi`.
-/
def writeABI {α : Type} (parse : String → Option α) (merge : α → α → α)
    (toStr : α → String) (abis : List String) (outputFile : String) : AbiResult :=
  match abis.getLast? with
  | none => .skipped
  | some last =>
    match parse last with
    | none => .warned
    | some seed =>
      match abis.foldlM (fun st a => (parse a).map (fun x => merge st x)) seed with
      | none => .warned
      | some final => .wrote (replaceExtensionAbi outputFile) (toStr final)

/-- The configuration `layoutMemory` consults. -/
structure MemCfg where
  globalBase : Nat
  zStackSize : Nat
  initialMemory : Nat
  maxMemory : Nat
  stackFirst : Bool
  relocatable : Bool
  isPic : Bool
  shared : Bool
  sharedMemory : Bool
  hasGlobalBase : Bool
  hasDsoHandle : Bool
  hasDataEnd : Bool
  hasHeapBase : Bool
  hasTlsSize : Bool
  deriving Repr

/-- An output segment as `layoutMemory` sees it: name, alignment, size. -/
structure SegL where
  name : String
  alignment : Nat
  size : Nat
  deriving Repr

/-- Everything `layoutMemory` assigns. -/
structure MemLayout where
  errors : List String
  dataStart : Nat
  dataEnd : Option Nat
  heapBase : Option Nat
  globalBaseVA : Option Nat
  dsoHandleVA : Option Nat
  stackPointerInit : Option Nat
  tlsSizeInit : Option Nat
  memAlign : Nat
  segVAs : List (SegL × Nat)
  memSize : Nat
  numMemoryPages : Nat
  maxMemoryPages : Option Nat
  deriving Repr

/-- The wasm page size (`WasmPageSize`). -/
def WasmPageSize : Nat := 65536

/-- The stack alignment constant (`stackAlignment`). -/
def stackAlignment : Nat := 16

/--
The `placeStack` closure of `Writer::layoutMemory`: a no-op for
relocatable/PIC output; otherwise align the (32-bit) memory pointer to 16,
report an error for a misaligned `--z stack-size`, advance by the stack
size and record the post-stack pointer in `__stack_pointer`.
-/
def placeStack (cfg : MemCfg) (p : Nat) (errs : List String) :
    Nat × List String × Option Nat :=
  if cfg.relocatable || cfg.isPic then (p, errs, none)
  else
    let p1 := w32 (alignTo p stackAlignment)
    let errs1 := if cfg.zStackSize ≠ alignTo cfg.zStackSize stackAlignment
      then errs ++ ["stack size must be 16-byte aligned"] else errs
    let p2 := w32 (p1 + cfg.zStackSize)
    (p2, errs1, some p2)

/--
The part of `Writer::layoutMemory` from the `__data_end` assignment on:
record `__data_end`; stop early for `shared`; place the stack (if not
stack-first); record `__heap_base`; enforce `initialMemory` and
`maxMemory`.  `p1` is the (32-bit) memory pointer after the segment loop,
`errs0`/`sp0` carry the errors and `__stack_pointer` value so far.
-/
def layoutMemoryTail (cfg : MemCfg) (dataStart p1 : Nat) (errs0 : List String)
    (sp0 : Option Nat) (memAlign : Nat) (segVAs : List (SegL × Nat))
    (tlsSizeInit : Option Nat) : MemLayout :=
  let globalBaseVA := if cfg.hasGlobalBase then some cfg.globalBase else none
  let dsoHandleVA := if cfg.hasDsoHandle then some dataStart else none
  let dataEnd := if cfg.hasDataEnd then some p1 else none
  if cfg.shared then
    { errors := errs0, dataStart := dataStart, dataEnd := dataEnd, heapBase := none,
      globalBaseVA := globalBaseVA, dsoHandleVA := dsoHandleVA,
      stackPointerInit := sp0, tlsSizeInit := tlsSizeInit, memAlign := memAlign,
      segVAs := segVAs, memSize := p1, numMemoryPages := 0, maxMemoryPages := none }
  else
    let s1 := if cfg.stackFirst then (p1, errs0, sp0) else placeStack cfg p1 errs0
    let p2 := s1.1
    let errs1 := s1.2.1
    let sp1 := if cfg.stackFirst then sp0 else s1.2.2
    let heapBase := if cfg.hasHeapBase then some p2 else none
    let im := cfg.initialMemory
    let errs2 := if im ≠ 0 ∧ im ≠ alignTo im WasmPageSize
      then errs1 ++ ["initial memory must be 65536-byte aligned"] else errs1
    let errs3 := if im ≠ 0 ∧ p2 > im
      then errs2 ++ ["initial memory too small"] else errs2
    let p3 := if im ≠ 0 ∧ ¬ p2 > im then im else p2
    let pages := alignTo p3 WasmPageSize / WasmPageSize
    let mm := cfg.maxMemory
    let checkMax := mm ≠ 0 ∨ cfg.sharedMemory
    let errs4 := if checkMax ∧ mm ≠ alignTo mm WasmPageSize
      then errs3 ++ ["maximum memory must be 65536-byte aligned"] else errs3
    let errs5 := if checkMax ∧ p3 > mm
      then errs4 ++ ["maximum memory too small"] else errs4
    let maxPages := if checkMax then some (mm / WasmPageSize) else none
    { errors := errs5, dataStart := dataStart, dataEnd := dataEnd, heapBase := heapBase,
      globalBaseVA := globalBaseVA, dsoHandleVA := dsoHandleVA,
      stackPointerInit := sp1, tlsSizeInit := tlsSizeInit, memAlign := memAlign,
      segVAs := segVAs, memSize := p3, numMemoryPages := pages, maxMemoryPages := maxPages }

/--
`Writer::layoutMemory`: place stack (if `--stack-first`) or start at
`globalBase`; assign segment addresses with alignment; then the tail
(`layoutMemoryTail`).  The memory pointer is a `uint32_t`, so every update
is truncated by `w32`.
-/
def layoutMemory (cfg : MemCfg) (segs : List SegL) : MemLayout :=
  let s0 := placeStack cfg 0 []
  let start : Nat × List String × Option Nat :=
    if cfg.stackFirst then s0 else (cfg.globalBase, [], none)
  let p0 := start.1
  let errs0 := start.2.1
  let sp0 := start.2.2
  let dataStart := p0
  let segloop := segs.foldl
    (fun (acc : Nat × Nat × List (SegL × Nat) × Option Nat) seg =>
      let memAlign := max acc.2.1 seg.alignment
      let p := w32 (alignTo acc.1 (1 <<< seg.alignment))
      let tls := if cfg.hasTlsSize ∧ seg.name = ".tdata" then some seg.size else acc.2.2.2
      (w32 (p + seg.size), memAlign, acc.2.2.1 ++ [(seg, p)], tls))
    (p0, 0, [], none)
  layoutMemoryTail cfg dataStart segloop.1 errs0 sp0 segloop.2.1 segloop.2.2.1 segloop.2.2.2

/-- One raw init-function record from an object's linking data. -/
structure RawInit where
  priority : Nat
  funcIdx : Nat
  discarded : Bool
  sigOk : Bool
  deriving DecidableEq, Repr

/-- A collected `WasmInitEntry`: function index and priority. -/
structure InitEntry where
  funcIdx : Nat
  priority : Nat
  deriving DecidableEq, Repr

/-- An object file's linking data as `calculateInitFunctions` reads it. -/
structure ObjInitData where
  initFuncs : List RawInit
  deriving Repr

/--
Stable insertion (used to realize `llvm::stable_sort` with comparator
`l.priority < r.priority`): the element is placed before the first entry
whose priority is not smaller, so equal-priority entries keep their
original relative order.
-/
def prInsert (x : InitEntry) : List InitEntry → List InitEntry
  | [] => [x]
  | y :: ys => if y.priority < x.priority then y :: prInsert x ys else x :: y :: ys

/-- Stable insertion sort by ascending priority. -/
def insSortInit : List InitEntry → List InitEntry
  | [] => []
  | a :: as => prInsert a (insSortInit as)

/-- Discovery order of init functions: object iteration order, skipping
comdat-discarded entries (`calculateInitFunctions` collection loop). -/
def collectInitFunctions (files : List ObjInitData) : List InitEntry :=
  files.flatMap (fun f =>
    (f.initFuncs.filter (fun r => !r.discarded)).map
      (fun r => { funcIdx := r.funcIdx, priority := r.priority }))

/-- Non-fatal errors raised for init functions with a non-void signature. -/
def initFunctionErrors (files : List ObjInitData) : List String :=
  files.flatMap (fun f =>
    (f.initFuncs.filter (fun r => !r.discarded ∧ !r.sigOk)).map
      (fun _ => "invalid signature for init func"))

/-- The configuration bits the ctors-related emitters consult. -/
structure CtorsCfg where
  relocatable : Bool
  callCtorsLive : Bool
  passiveSegments : Bool
  isPic : Bool
  initMemoryIdx : Nat
  applyRelocsIdx : Nat
  deriving Repr

/--
`Writer::calculateInitFunctions`: empty unless relocatable output or a live
`__wasm_call_ctors`; otherwise the collected entries, stable-sorted by
ascending priority.
-/
def calculateInitFunctions (cfg : CtorsCfg) (files : List ObjInitData) : List InitEntry :=
  if !cfg.relocatable ∧ !cfg.callCtorsLive then []
  else insSortInit (collectInitFunctions files)

/-- A synthesized function body: local declarations and instruction list. -/
structure FuncBody where
  localDecls : List (Nat × Nat)
  code : List Instr
  deriving DecidableEq, Repr

/--
`Writer::createCallCtorsFunction`: skipped when `__wasm_call_ctors` is not
live; otherwise `num_locals = 0`, an optional call to `__wasm_init_memory`
(passive segments), an optional call to `__wasm_apply_relocs` (PIC), one
call per init function in the given order, and `END`.
-/
def createCallCtorsFunction (cfg : CtorsCfg) (initFunctions : List InitEntry) :
    Option FuncBody :=
  if !cfg.callCtorsLive then none
  else some
    { localDecls := [],
      code :=
        (if cfg.passiveSegments then [Instr.call cfg.initMemoryIdx] else []) ++
        (if cfg.isPic then [Instr.call cfg.applyRelocsIdx] else []) ++
        initFunctions.map (fun f => Instr.call f.funcIdx) ++ [Instr.endv] }

/--
The symbol-table and configuration context the dispatcher emitters read:
`findF` models `symtab->find(...)` followed by
`FunctionSymbol::getFunctionIndex`, `findG` models the lookups that are
cast to `GlobalSymbol` and read `getGlobalIndex` (`__stack_canary`,
`__data_end`), `nsyms` is `symtab->getSymbols().size()`.
-/
structure LinkEnv where
  findF : String → Option Nat
  findG : String → Option Nat
  nsyms : Nat
  stackCanary : Bool
  objs : List ObjFileM

/--
The instruction sequence of the stack-canary prologue:
`call current_time; global.set canary; i32.const (data_end_idx + 8);
global.get canary; i64.store align=3 offset=0` (alignment immediate 3
denotes 8-byte alignment).
-/
def canaryPrologCode (g de timeIdx : Nat) : List Instr :=
  [Instr.call timeIdx, .setGlobal g, .i32const (de + 8), .getGlobal g,
   .i64store 3 0]

/--
The instruction sequence of the stack-canary epilogue:
`global.get canary; i32.const (data_end_idx + 8); i64.load align=3 offset=0;
i64.ne; if; i32.const 0; i64.const EOSIO_CANARY_FAILURE;
call eosio_assert_code; end`.
-/
def canaryEpilogCode (g de a : Nat) : List Instr :=
  [Instr.getGlobal g, .i32const (de + 8), .i64load 3 0, .i64ne, .ifv,
   .i32const 0, .i64const EOSIO_CANARY_FAILURE, .call a, .endv]

/--
Stack-canary prologue (identical in both dispatchers): look up
`__stack_canary` and `current_time` (a missing `current_time` is a fatal
error; the unchecked `GlobalSymbol` dereferences are modelled as errors),
then emit `call current_time; global.set canary; i32.const (data_end_idx + 8);
global.get canary; i64.store align=3 offset=0`.  The source writes the
`call` operand with `writeU8` — a single raw byte — so the byte stream is
only a correct encoding of this instruction sequence when the function
index of `current_time` is below 128 (see `canaryTimeCallBytes`).
-/
def canaryProlog (env : LinkEnv) : Except String (List Instr) :=
  match env.findF "current_time" with
  | none => .error "internal error, current_time not found"
  | some timeIdx =>
    match env.findG "__stack_canary", env.findG "__data_end" with
    | some g, some de => .ok (canaryPrologCode g de timeIdx)
    | _, _ => .error "null symbol dereference"

/--
Stack-canary epilogue (identical in both dispatchers): reload the 64-bit
value at `data_end_idx + 8`, compare with the `__stack_canary` global, and
on mismatch call `eosio_assert_code(0, EOSIO_CANARY_FAILURE)`.  The fresh
`eosio_assert_code` lookup here is dereferenced without a null check.
-/
def canaryEpilog (env : LinkEnv) : Except String (List Instr) :=
  match env.findG "__stack_canary", env.findG "__data_end",
        env.findF "eosio_assert_code" with
  | some g, some de, some a => .ok (canaryEpilogCode g de a)
  | _, _, _ => .error "null symbol dereference"

/--
The `create_if` closure of `createDispatchFunction` (also reused for
notification handlers): optional `ELSE`, then
`i64.const name(action); local.get 2; i64.eq; if; local.get 0;
local.get 1; call target`.  The target symbol is dereferenced without a
null check (modelled as an error); the vestigial `if (index >= 0)` test on
an unsigned index is always true, so the index is always written.
-/
def actionBlk (env : LinkEnv) (a : String) (needElse : Bool) :
    Except String (List Instr) :=
  match env.findF (fnOf a) with
  | none => .error "null symbol dereference"
  | some idx => .ok
      ((if needElse then [Instr.elsev] else []) ++
       [Instr.i64const (string_to_name (nameOf a)), .getLocal 2, .i64eq, .ifv,
        .getLocal 0, .getLocal 1, .call idx])

/--
The action-dispatch loop: iterate the actions of every object file in
order, emit one `create_if` per action not seen before (the
`has_dispatched` set), threading the `need_else` flag; also return the
number of emitted tests (`act_cnt`).
-/
def actionChainGo (env : LinkEnv) (seen : List String) (needElse : Bool) :
    List String → Except String (List Instr × Nat)
  | [] => .ok ([], 0)
  | a :: as =>
    if a ∈ seen then actionChainGo env seen needElse as
    else
      match actionBlk env a needElse with
      | .error e => .error e
      | .ok blk =>
        match actionChainGo env (a :: seen) true as with
        | .error e => .error e
        | .ok r => .ok (blk ++ r.1, r.2 + 1)

/--
The `create_action_dispatch` closure: the deduplicated action chain, an
`ELSE` when at least one test was emitted, the `receiver != "eosio"` guard
block asserting `EOSIO_ERROR_NO_ACTION` (fatal when `eosio_assert_code` is
missing or its index is not below the symbol-table size), an optional
`post_dispatch` branch, the guard's `END`, and one `END` per emitted test.
-/
def createActionDispatch (env : LinkEnv) : Except String (List Instr) :=
  match actionChainGo env [] false (env.objs.flatMap (fun o => o.actions)) with
  | .error e => .error e
  | .ok r =>
    match env.findF "eosio_assert_code" with
    | some a =>
      if a < env.nsyms then
        let assertPart := [Instr.i32const 0, Instr.i64const EOSIO_ERROR_NO_ACTION, Instr.call a]
        let postPart : List Instr :=
          match env.findF "post_dispatch" with
          | some p => [Instr.elsev, .getLocal 0, .getLocal 1, .getLocal 2, .call p]
          | none => []
        .ok (r.1 ++ (if r.2 > 0 then [Instr.elsev] else []) ++
             [Instr.getLocal 0, .i64const (string_to_name "eosio"), .i64ne, .ifv] ++
             assertPart ++ postPart ++ [Instr.endv] ++ List.replicate r.2 Instr.endv)
      else
        .error "fatal failure: contract with no actions and trying to create dispatcher"
    | none =>
      .error "fatal failure: contract with no actions and trying to create dispatcher"

/--
Split a notification string `code::action:fn` at its first colon:
`code_name = substr(0, idx)` and `rest = substr(idx + 2)`.  When there is
no colon, `idx` is `npos` and `npos + 2` wraps to `1`, so the C++ takes
`substr(1)`.
-/
def notifSplit (s : String) : String × String :=
  let c := s.data.takeWhile (fun ch => ch ≠ ':')
  if c.length = s.data.length then (⟨c⟩, ⟨s.data.drop 1⟩)
  else (⟨c⟩, ⟨s.data.drop (c.length + 2)⟩)

/-- Ordered-map insertion mirroring `std::map<std::string, vector<string>>`:
keys are kept sorted; an existing key has the value appended. -/
def mapInsert (k : String) (v : String) :
    List (String × List String) → List (String × List String)
  | [] => [(k, [v])]
  | (k0, vs) :: rest =>
    if k = k0 then (k0, vs ++ [v]) :: rest
    else if k < k0 then (k, [v]) :: (k0, vs) :: rest
    else (k0, vs) :: mapInsert k v rest

/-- The notify-registration loop: dedup raw strings via `has_dispatched`,
split each new one and insert it into the handler map; count them. -/
def notifyLoopGo (seen : List String) (acc : List (String × List String))
    (cnt : Nat) : List String → List (String × List String) × Nat
  | [] => (acc, cnt)
  | n :: ns =>
    if n ∈ seen then notifyLoopGo seen acc cnt ns
    else
      let s := notifSplit n
      notifyLoopGo (n :: seen) (mapInsert s.1 s.2 acc) (cnt + 1) ns

/-- A chain of `create_if` handler tests with a locally-fresh `need_else`. -/
def innerChainGo (env : LinkEnv) (needElse : Bool) :
    List String → Except String (List Instr)
  | [] => .ok []
  | h :: hs =>
    match actionBlk env h needElse with
    | .error e => .error e
    | .ok b =>
      match innerChainGo env true hs with
      | .error e => .error e
      | .ok rest => .ok (b ++ rest)

/--
The per-code-name group loop of `create_notify_dispatch`: skip the
wildcard key, otherwise emit an optional `ELSE`, the
`i64.const name(code); local.get 1; i64.eq; if` header, the handler chain,
and one `END` per handler; report whether anything was written.
-/
def notifyGroupGo (env : LinkEnv) (needElse : Bool) (hasWritten : Bool) :
    List (String × List String) → Except String (List Instr × Bool)
  | [] => .ok ([], hasWritten)
  | (code, hs) :: rest =>
    if code = "*" then notifyGroupGo env needElse hasWritten rest
    else
      match innerChainGo env false hs with
      | .error e => .error e
      | .ok inner =>
        match notifyGroupGo env true true rest with
        | .error e => .error e
        | .ok r =>
          .ok ((if needElse then [Instr.elsev] else []) ++
               [Instr.i64const (string_to_name code), .getLocal 1, .i64eq, .ifv] ++
               inner ++ List.replicate hs.length Instr.endv ++ r.1, r.2)

/-- `assert_idx` as computed once at the top of `createDispatchFunction`:
`UINT32_MAX` when `eosio_assert_code` is absent. -/
def assertIdxOf (env : LinkEnv) : Nat := (env.findF "eosio_assert_code").getD (2 ^ 32 - 1)

/--
The `create_notify_dispatch` closure: register handlers; when no
`eosio::onerror` handler exists, emit the guard asserting
`EOSIO_ERROR_ONERROR` under `code == "eosio" && action == "onerror"`;
then the per-code groups followed by `ELSE` when any group was written;
then the wildcard handler chain; then an optional `post_dispatch` branch
with its `END`; then one `END` per wildcard handler.
-/
def createNotifyDispatch (env : LinkEnv) : Except String (List Instr) :=
  let reg := notifyLoopGo [] [] 0 (env.objs.flatMap (fun o => o.notifies))
  let handlers := reg.1
  let cnt := reg.2
  let hasOnerror := cnt > 0 ∧ handlers.any (fun kv =>
    kv.1 = "eosio" ∧ kv.2.any (fun v => nameOf v = "onerror"))
  let onerrorPart : List Instr :=
    if ¬ hasOnerror then
      [Instr.i64const (string_to_name "eosio"), .getLocal 1, .i64eq, .ifv,
       .i64const (string_to_name "onerror"), .getLocal 2, .i64eq, .ifv,
       .i32const 0, .i64const EOSIO_ERROR_ONERROR, .call (assertIdxOf env),
       .endv, .endv]
    else []
  match (if cnt > 0 then notifyGroupGo env false false handlers
         else Except.ok (([] : List Instr), false)) with
  | .error e => .error e
  | .ok groups =>
    let wild := ((handlers.find? (fun kv => kv.1 = "*")).map (fun kv => kv.2)).getD []
    match (if wild.isEmpty then Except.ok ([] : List Instr)
           else innerChainGo env false wild) with
    | .error e => .error e
    | .ok wildPart =>
      let postPart : List Instr :=
        match env.findF "post_dispatch" with
        | some p => [Instr.elsev, .getLocal 0, .getLocal 1, .getLocal 2, .call p, .endv]
        | none => []
      .ok (onerrorPart ++ groups.1 ++ (if groups.2 then [Instr.elsev] else []) ++
           wildPart ++ postPart ++ List.replicate wild.length Instr.endv)

/--
`Writer::createDispatchFunction`: the synthesized `apply`-shaped
action/notification dispatcher.  `num_locals = 0`; the body is
`local.get 0; call eosio_set_contract_name`, an optional
`call __wasm_call_ctors` (only when the symbol is present *and* its
function index is non-zero), the optional stack-canary prologue, the
optional `pre_dispatch` call and `if`, the `receiver == code` test, the
action dispatch, `ELSE`, the notification dispatch, `END`, the optional
stack-canary epilogue, an optional `__cxa_finalize(NULL)` (only when the
symbol is present, its index is non-zero and below the symbol-table
size), the `pre_dispatch` `END` when applicable, and the final `END`.
-/
def createDispatchFunction (env : LinkEnv) : Except String FuncBody :=
  match env.findF "eosio_set_contract_name" with
  | none => .error "null symbol dereference"
  | some contractIdx =>
    let ctorsPart : List Instr :=
      match env.findF "__wasm_call_ctors" with
      | some i => if i ≠ 0 then [Instr.call i] else []
      | none => []
    match (if env.stackCanary then canaryProlog env else Except.ok []) with
    | .error e => .error e
    | .ok canaryPart =>
      let prePart : List Instr :=
        match env.findF "pre_dispatch" with
        | some p => [Instr.getLocal 0, .getLocal 1, .getLocal 2, .call p, .ifv]
        | none => []
      match createActionDispatch env with
      | .error e => .error e
      | .ok actionPart =>
        match createNotifyDispatch env with
        | .error e => .error e
        | .ok notifyPart =>
          match (if env.stackCanary then canaryEpilog env else Except.ok []) with
          | .error e => .error e
          | .ok canaryEpi =>
            let dtorsPart : List Instr :=
              match env.findF "__cxa_finalize" with
              | some i => if i ≠ 0 ∧ i < env.nsyms then [Instr.i32const 0, Instr.call i] else []
              | none => []
            let preEnd : List Instr :=
              match env.findF "pre_dispatch" with
              | some _ => [Instr.endv]
              | none => []
            .ok { localDecls := [],
                  code := [Instr.getLocal 0, .call contractIdx] ++ ctorsPart ++ canaryPart ++
                          prePart ++ [Instr.getLocal 0, .getLocal 1, .i64eq, .ifv] ++
                          actionPart ++ [Instr.elsev] ++ notifyPart ++ [Instr.endv] ++
                          canaryEpi ++ dtorsPart ++ preEnd ++ [Instr.endv] }

/--
The `create_if` closure of `createCallDispatchFunction`: optional `ELSE`;
fetch the payload (`__eos_get_sync_call_data_(data_size)` into local 3)
and its header (`__eos_get_sync_call_data_header_(data)` into local 4);
load the 32-bit version at header offset 0 and return
`SYNC_CALL_UNSUPPORTED_HEADER_VERSION` if it is non-zero; load the 64-bit
function name at header offset 8 and compare it with `hash_id` of the call
name; on a match call the target with `(sender, receiver, data_size,
data)`.  Missing helper symbols, a missing target and a target index not
below the symbol-table size are thrown errors.  `hashId` abstracts
`eosio::cdt::to_hash_id`, which the spec leaves to the shared utility
library.
-/
def callBlk (env : LinkEnv) (hashId : String → Nat) (c : String) (needElse : Bool) :
    Except String (List Instr) :=
  match env.findF "__eos_get_sync_call_data_" with
  | none => .error "wasm_ld internal error: __eos_get_sync_call_data_ not found"
  | some gd =>
    match env.findF "__eos_get_sync_call_data_header_" with
    | none => .error "wasm_ld internal error: __eos_get_sync_call_data_header_ not found"
    | some gh =>
      match env.findF (fnOf c) with
      | none => .error "wasm_ld internal error sync call function not found"
      | some tgt =>
        if tgt < env.nsyms then
          .ok ((if needElse then [Instr.elsev] else []) ++
            [Instr.getLocal 2, .call gd, .setLocal 3,
             .getLocal 3, .call gh, .setLocal 4,
             .getLocal 4, .i32load 2 0,
             .ifv, .i64const (toU64 SYNC_CALL_UNSUPPORTED_HEADER_VERSION), .retv, .endv,
             .getLocal 4, .i32const 8, .i32add, .i64load 3 0,
             .i64const (w64 (hashId (nameOf c))), .i64eq, .ifv,
             .getLocal 0, .getLocal 1, .getLocal 2, .getLocal 3, .call tgt])
        else .error "wasm_ld internal error sync call function index out of bound"

/-- The sync-call dispatch loop with its `has_dispatched` dedup set. -/
def callChainGo (env : LinkEnv) (hashId : String → Nat) (seen : List String)
    (needElse : Bool) : List String → Except String (List Instr × Nat)
  | [] => .ok ([], 0)
  | c :: cs =>
    if c ∈ seen then callChainGo env hashId seen needElse cs
    else
      match callBlk env hashId c needElse with
      | .error e => .error e
      | .ok blk =>
        match callChainGo env hashId (c :: seen) true cs with
        | .error e => .error e
        | .ok r => .ok (blk ++ r.1, r.2 + 1)

/--
The `create_call_dispatch` closure: the deduplicated chain (a zero count
is a thrown error), then `ELSE; i64.const SYNC_CALL_UNKNOWN_FUNCTION;
return`, then one `END` per emitted test.
-/
def createCallDispatch (env : LinkEnv) (hashId : String → Nat) :
    Except String (List Instr) :=
  match callChainGo env hashId [] false (env.objs.flatMap (fun o => o.calls)) with
  | .error e => .error e
  | .ok r =>
    if r.2 = 0 then
      .error "wasm_ld internal error: call_cnt must be greater than 0"
    else
      .ok (r.1 ++
        [Instr.elsev, .i64const (toU64 SYNC_CALL_UNKNOWN_FUNCTION), .retv] ++
        List.replicate r.2 Instr.endv)

/--
`Writer::createCallDispatchFunction`: the synthesized `sync_call` entry
point.  One local group of two `i32` locals (indices 3 and 4); the body is
`local.get 1; call eosio_set_contract_name`, the optional ctors call, the
optional canary prologue, the call-dispatch chain, the optional canary
epilogue, the optional `__cxa_finalize(NULL)`, and
`i64.const SYNC_CALL_EXECUTED; END` as the fall-through status.
-/
def createCallDispatchFunction (env : LinkEnv) (hashId : String → Nat) :
    Except String FuncBody :=
  match env.findF "eosio_set_contract_name" with
  | none => .error "null symbol dereference"
  | some contractIdx =>
    let ctorsPart : List Instr :=
      match env.findF "__wasm_call_ctors" with
      | some i => if i ≠ 0 then [Instr.call i] else []
      | none => []
    match (if env.stackCanary then canaryProlog env else Except.ok []) with
    | .error e => .error e
    | .ok canaryPart =>
      match createCallDispatch env hashId with
      | .error e => .error e
      | .ok chain =>
        match (if env.stackCanary then canaryEpilog env else Except.ok []) with
        | .error e => .error e
        | .ok canaryEpi =>
          let dtorsPart : List Instr :=
            match env.findF "__cxa_finalize" with
            | some i => if i ≠ 0 ∧ i < env.nsyms then [Instr.i32const 0, Instr.call i] else []
            | none => []
          .ok { localDecls := [(2, 0x7f)],
                code := [Instr.getLocal 1, .call contractIdx] ++ ctorsPart ++ canaryPart ++
                        chain ++ canaryEpi ++ dtorsPart ++
                        [Instr.i64const (toU64 SYNC_CALL_EXECUTED), Instr.endv] }

/--
The instruction sequence of one sync-call test block apart from its
optional leading `ELSE`, with the helper indices, target index and hash
value abstracted out; `callBlk` emits exactly this list.
-/
def callBlkBody (gd gh tgt hcode : Nat) : List Instr :=
  [Instr.getLocal 2, .call gd, .setLocal 3,
   .getLocal 3, .call gh, .setLocal 4,
   .getLocal 4, .i32load 2 0,
   .ifv, .i64const (toU64 SYNC_CALL_UNSUPPORTED_HEADER_VERSION), .retv, .endv,
   .getLocal 4, .i32const 8, .i32add, .i64load 3 0,
   .i64const (w64 hcode), .i64eq, .ifv,
   .getLocal 0, .getLocal 1, .getLocal 2, .getLocal 3, .call tgt]

/--
The state change a sync-call test block performs on its way to a
mismatching name test: local 3 receives the data pointer, local 4 the
header pointer, and the two helper calls are recorded.
-/
def blkUpd (henv : HostEnv) (gd gh : Nat) (st : St) : St :=
  { st with
    stack := [],
    locals := fun k =>
      if k = 4 then w64 (henv.ret gh [w64 (henv.ret gd [st.locals 2])])
      else if k = 3 then w64 (henv.ret gd [st.locals 2]) else st.locals k,
    events := st.events ++ [Event.call gd [st.locals 2],
                            Event.call gh [w64 (henv.ret gd [st.locals 2])]] }

/--
A concrete configuration showing that the heap-base bound fails for
relocatable output: the stack is never placed (`placeStack` returns
immediately for relocatable/PIC), so `__heap_base` equals `__data_end`
even though `zStackSize = 16` and `stackFirst` is off.
-/
def memCfgCex : MemCfg :=
  { globalBase := 0, zStackSize := 16, initialMemory := 0, maxMemory := 0,
    stackFirst := false, relocatable := true, isPic := false, shared := false,
    sharedMemory := false, hasGlobalBase := false, hasDsoHandle := false,
    hasDataEnd := true, hasHeapBase := true, hasTlsSize := false }

/--
A concrete link for the ctors-call claim: `__wasm_call_ctors` is present in
the symbol table but has function index 0, so the emitter's
`ctors_idx != 0` test suppresses the call.
-/
def envC9 : LinkEnv :=
  { findF := fun s =>
      if s = "eosio_set_contract_name" then some 5
      else if s = "__wasm_call_ctors" then some 0
      else if s = "eosio_assert_code" then some 6
      else if s = "apply_transfer" then some 7
      else none,
    findG := fun _ => none, nsyms := 100, stackCanary := false,
    objs := [{ actions := ["transfer:apply_transfer"], notifies := [], calls := [],
               abi := "", segments := [] }] }

/-- A concrete link where both `__wasm_call_ctors` (index 3) and
`__cxa_finalize` (index 4) are present with usable indices. -/
def envC9b : LinkEnv :=
  { findF := fun s =>
      if s = "eosio_set_contract_name" then some 5
      else if s = "__wasm_call_ctors" then some 3
      else if s = "eosio_assert_code" then some 6
      else if s = "apply_transfer" then some 7
      else if s = "__cxa_finalize" then some 4
      else none,
    findG := fun _ => none, nsyms := 100, stackCanary := false,
    objs := [{ actions := ["transfer:apply_transfer"], notifies := [], calls := [],
               abi := "", segments := [] }] }

/-- A concrete link with stack canaries enabled: canary global index 2,
`__data_end` index 3, `current_time` at function index 9. -/
def envC1 : LinkEnv :=
  { findF := fun s =>
      if s = "eosio_set_contract_name" then some 5
      else if s = "eosio_assert_code" then some 6
      else if s = "apply_transfer" then some 7
      else if s = "current_time" then some 9
      else none,
    findG := fun s =>
      if s = "__stack_canary" then some 2
      else if s = "__data_end" then some 3
      else none,
    nsyms := 100, stackCanary := true,
    objs := [{ actions := ["transfer:apply_transfer"], notifies := [], calls := [],
               abi := "", segments := [] }] }

/-- A concrete host for `envC1`: `eosio_assert_code` takes two arguments,
`current_time` returns 42. -/
def henvC1 : HostEnv :=
  { arity := fun j => if j = 6 then 2 else 0,
    hasRet := fun j => j == 9,
    ret := fun _ _ => 42 }

/-- A concrete state whose canary global (7) disagrees with the canary slot
in linear memory (0). -/
def stC1 : St :=
  { stack := [], locals := fun _ => 0,
    globals := fun k => if k = 2 then 7 else 0,
    mem := fun _ => 0, events := [] }

/-- A concrete link with no constructor, destructor or pre/post hooks, no
notify handlers, and a single `transfer` action. -/
def envC6 : LinkEnv :=
  { findF := fun s =>
      if s = "eosio_set_contract_name" then some 5
      else if s = "eosio_assert_code" then some 6
      else if s = "apply_transfer" then some 7
      else none,
    findG := fun _ => none, nsyms := 100, stackCanary := false,
    objs := [{ actions := ["transfer:apply_transfer"], notifies := [], calls := [],
               abi := "", segments := [] }] }

/-- A concrete host for `envC6`: `eosio_set_contract_name` takes one
argument, `eosio_assert_code` takes two, nothing returns a value. -/
def henvC6 : HostEnv :=
  { arity := fun j => if j = 5 then 1 else if j = 6 then 2 else 0,
    hasRet := fun _ => false,
    ret := fun _ _ => 0 }

/-- A concrete dispatch state: receiver equals code, and the action name
in local 2 matches no registered action. -/
def stC6 : St :=
  { stack := [], locals := fun i => if i = 2 then 1 else 0,
    globals := fun _ => 0, mem := fun _ => 0, events := [] }

/-- A concrete link with a single sync call `foo:do_foo` and both payload
helpers present, no hooks. -/
def envC3 : LinkEnv :=
  { findF := fun s =>
      if s = "eosio_set_contract_name" then some 5
      else if s = "do_foo" then some 7
      else if s = "__eos_get_sync_call_data_" then some 8
      else if s = "__eos_get_sync_call_data_header_" then some 9
      else none,
    findG := fun _ => none, nsyms := 100, stackCanary := false,
    objs := [{ actions := [], notifies := [], calls := ["foo:do_foo"],
               abi := "", segments := [] }] }

/-- A concrete host for `envC3`: the payload helpers return data pointer
100 and header pointer 200, the target `do_foo` takes four arguments. -/
def henvC3 : HostEnv :=
  { arity := fun j =>
      if j = 5 then 1 else if j = 7 then 4
      else if j = 8 then 1 else if j = 9 then 1 else 0,
    hasRet := fun j => j == 8 || j == 9,
    ret := fun j _ => if j = 8 then 100 else if j = 9 then 200 else 0 }

/-- A sync-call state whose header version word (at address 200) is 1. -/
def stC3v : St :=
  { stack := [], locals := fun _ => 0, globals := fun _ => 0,
    mem := fun a => if a = 200 then 1 else 0, events := [] }

/-- A sync-call state with version 0 whose function name (at address 208)
matches no registered call. -/
def stC3u : St :=
  { stack := [], locals := fun _ => 0, globals := fun _ => 0,
    mem := fun a => if a = 208 then 999 else 0, events := [] }

/-- A sync-call state with version 0 whose function name matches the hash
of the registered call name `foo`. -/
def stC3m : St :=
  { stack := [], locals := fun _ => 0, globals := fun _ => 0,
    mem := fun a => if a = 208 then string_to_name "foo" else 0, events := [] }

/-! ### Theorems -/

/-- The source's name-canonicalization function agrees with the rule list as
the spec words it. -/
theorem getOutputDataSegmentName_eq_spec (pic mg : Bool) (n : String) :
    getOutputDataSegmentName pic mg n = segNameSpec pic mg n := by
  cases pic <;> cases mg <;>
    simp [getOutputDataSegmentName, segNameSpec]

/-- Invariant preserved by one `cosProcessSeg` step: every output segment's
passive flag matches the rule, and every collected input is live with the
matching canonical name. -/
theorem cosProcessSeg_inv (cfg : CosCfg) (st : CosState) (x : InputSegM)
    (h : ∀ s ∈ st.segments,
      (s.passive = true ↔ (cfg.passiveSegments = true ∨ s.name = ".tdata")) ∧
      ∀ j ∈ s.inputs, j.live = true ∧
        getOutputDataSegmentName cfg.isPic cfg.mergeDataSegments j.name = s.name) :
    ∀ s ∈ (cosProcessSeg cfg st x).segments,
      (s.passive = true ↔ (cfg.passiveSegments = true ∨ s.name = ".tdata")) ∧
      ∀ j ∈ s.inputs, j.live = true ∧
        getOutputDataSegmentName cfg.isPic cfg.mergeDataSegments j.name = s.name := by
  intro s hs
  simp only [cosProcessSeg] at hs
  split at hs
  · exact h s hs
  · next hlive =>
    have hl : x.live = true := by
      revert hlive; cases x.live <;> simp
    split at hs
    · next t hf =>
      rcases List.mem_map.mp hs with ⟨u, hu, hfu⟩
      by_cases hn : u.name = getOutputDataSegmentName cfg.isPic cfg.mergeDataSegments x.name
      · have hfu2 : ({ u with inputs := u.inputs ++ [x] } : OutSeg) = s := by
          rw [← hfu]; exact (if_pos hn).symm
        subst hfu2
        refine ⟨(h u hu).1, ?_⟩
        intro j hj
        have hj2 : j ∈ u.inputs ++ [x] := hj
        rcases List.mem_append.mp hj2 with hj3 | hj3
        · exact (h u hu).2 j hj3
        · rw [List.mem_singleton] at hj3
          subst hj3
          exact ⟨hl, hn.symm⟩
      · have hfu2 : u = s := by rw [← hfu]; exact (if_neg hn).symm
        subst hfu2
        exact h u hu
    · next hf =>
      have hs2 : s ∈ st.segments ++
          [{ name := getOutputDataSegmentName cfg.isPic cfg.mergeDataSegments x.name,
             index := st.segments.length,
             passive := cfg.passiveSegments ||
               decide (getOutputDataSegmentName cfg.isPic cfg.mergeDataSegments x.name = ".tdata"),
             inputs := [x] }] := hs
      rcases List.mem_append.mp hs2 with hs3 | hs3
      · exact h s hs3
      · rw [List.mem_singleton] at hs3
        subst hs3
        refine ⟨by simp [Bool.or_eq_true, decide_eq_true_iff], ?_⟩
        intro j hj
        rw [List.mem_singleton] at hj
        subst hj
        exact ⟨hl, rfl⟩

/-- The invariant is preserved by folding a list of input segments. -/
theorem cosFold_inv (cfg : CosCfg) (l : List InputSegM) :
    ∀ st, (∀ s ∈ st.segments,
      (s.passive = true ↔ (cfg.passiveSegments = true ∨ s.name = ".tdata")) ∧
      ∀ j ∈ s.inputs, j.live = true ∧
        getOutputDataSegmentName cfg.isPic cfg.mergeDataSegments j.name = s.name) →
    ∀ s ∈ (l.foldl (cosProcessSeg cfg) st).segments,
      (s.passive = true ↔ (cfg.passiveSegments = true ∨ s.name = ".tdata")) ∧
      ∀ j ∈ s.inputs, j.live = true ∧
        getOutputDataSegmentName cfg.isPic cfg.mergeDataSegments j.name = s.name := by
  induction l with
  | nil => intro st h; exact h
  | cons x xs ih =>
    intro st h
    exact ih (cosProcessSeg cfg st x) (cosProcessSeg_inv cfg st x h)

/-- The invariant holds of the final state of `createOutputSegments`. -/
theorem createOutputSegments_inv (cfg : CosCfg) (files : List ObjFileM) :
    ∀ s ∈ (createOutputSegments cfg files).segments,
      (s.passive = true ↔ (cfg.passiveSegments = true ∨ s.name = ".tdata")) ∧
      ∀ j ∈ s.inputs, j.live = true ∧
        getOutputDataSegmentName cfg.isPic cfg.mergeDataSegments j.name = s.name := by
  have main : ∀ (fs : List ObjFileM) (st : CosState),
      (∀ s ∈ st.segments,
        (s.passive = true ↔ (cfg.passiveSegments = true ∨ s.name = ".tdata")) ∧
        ∀ j ∈ s.inputs, j.live = true ∧
          getOutputDataSegmentName cfg.isPic cfg.mergeDataSegments j.name = s.name) →
      ∀ s ∈ (fs.foldl (fun st f =>
          let st1 := if f.abi ≠ "" then { st with abis := st.abis ++ [f.abi] } else st
          f.segments.foldl (cosProcessSeg cfg) st1) st).segments,
        (s.passive = true ↔ (cfg.passiveSegments = true ∨ s.name = ".tdata")) ∧
        ∀ j ∈ s.inputs, j.live = true ∧
          getOutputDataSegmentName cfg.isPic cfg.mergeDataSegments j.name = s.name := by
    intro fs
    induction fs with
    | nil => intro st h; exact h
    | cons f fs ih =>
      intro st h
      refine ih _ ?_
      refine cosFold_inv cfg f.segments _ ?_
      intro s hs
      by_cases ha : f.abi ≠ ""
      · rw [if_pos ha] at hs; exact h s hs
      · rw [if_neg ha] at hs; exact h s hs
  unfold createOutputSegments
  exact main files { abis := [], segments := [] } (by intro s hs; simp at hs)

/-- One `cosProcessSeg` step preserves existing segments: same name, inputs
only appended. -/
theorem cosProcessSeg_preserves (cfg : CosCfg) (st : CosState) (x : InputSegM) :
    ∀ s ∈ st.segments, ∃ s2 ∈ (cosProcessSeg cfg st x).segments,
      s2.name = s.name ∧ ∀ j ∈ s.inputs, j ∈ s2.inputs := by
  intro s hs
  simp only [cosProcessSeg]
  split
  · exact ⟨s, hs, rfl, fun j hj => hj⟩
  · split
    · by_cases hn : s.name = getOutputDataSegmentName cfg.isPic cfg.mergeDataSegments x.name
      · refine ⟨{ s with inputs := s.inputs ++ [x] }, ?_, rfl, ?_⟩
        · exact List.mem_map.mpr ⟨s, hs, if_pos hn⟩
        · intro j hj; exact List.mem_append_left _ hj
      · refine ⟨s, ?_, rfl, fun j hj => hj⟩
        exact List.mem_map.mpr ⟨s, hs, if_neg hn⟩
    · exact ⟨s, List.mem_append_left _ hs, rfl, fun j hj => hj⟩

/-- Folding a segment list preserves existing segments. -/
theorem cosFold_preserves (cfg : CosCfg) (l : List InputSegM) :
    ∀ st, ∀ s ∈ st.segments, ∃ s2 ∈ (l.foldl (cosProcessSeg cfg) st).segments,
      s2.name = s.name ∧ ∀ j ∈ s.inputs, j ∈ s2.inputs := by
  induction l with
  | nil => intro st s hs; exact ⟨s, hs, rfl, fun j hj => hj⟩
  | cons x xs ih =>
    intro st s hs
    rcases cosProcessSeg_preserves cfg st x s hs with ⟨s1, hs1, hname1, hsub1⟩
    rcases ih (cosProcessSeg cfg st x) s1 hs1 with ⟨s2, hs2, hname2, hsub2⟩
    exact ⟨s2, hs2, hname2.trans hname1, fun j hj => hsub2 j (hsub1 j hj)⟩

/-- A live input segment is placed by `cosProcessSeg` into a segment with
its canonical output name. -/
theorem cosProcessSeg_adds (cfg : CosCfg) (st : CosState) (x : InputSegM)
    (hl : x.live = true) :
    ∃ s ∈ (cosProcessSeg cfg st x).segments,
      s.name = getOutputDataSegmentName cfg.isPic cfg.mergeDataSegments x.name ∧
      x ∈ s.inputs := by
  simp only [cosProcessSeg]
  have hcond : ¬ ((!x.live) = true) := by simp [hl]
  rw [if_neg hcond]
  rcases hf : st.segments.find?
      (fun s => s.name = getOutputDataSegmentName cfg.isPic cfg.mergeDataSegments x.name) with _ | t
  · rw [hf]
    refine ⟨_, List.mem_append_right _ (List.mem_singleton.mpr rfl), rfl,
      List.mem_singleton.mpr rfl⟩
  · rw [hf]
    have ht := List.mem_of_find?_eq_some hf
    have hname : t.name = getOutputDataSegmentName cfg.isPic cfg.mergeDataSegments x.name := by
      have := List.find?_some hf
      simpa using this
    refine ⟨{ t with inputs := t.inputs ++ [x] }, ?_, hname, List.mem_append_right _ (List.mem_singleton.mpr rfl)⟩
    exact List.mem_map.mpr ⟨t, ht, if_pos hname⟩

/-- Every live input segment of the folded list ends up in a segment with
its canonical output name. -/
theorem cosFold_adds (cfg : CosCfg) (l : List InputSegM) :
    ∀ st, ∀ x ∈ l, x.live = true →
      ∃ s ∈ (l.foldl (cosProcessSeg cfg) st).segments,
        s.name = getOutputDataSegmentName cfg.isPic cfg.mergeDataSegments x.name ∧
        x ∈ s.inputs := by
  induction l with
  | nil => intro st x hx; exact absurd hx (List.not_mem_nil x)
  | cons y ys ih =>
    intro st x hx hl
    rcases List.mem_cons.mp hx with rfl | hx
    · rcases cosProcessSeg_adds cfg st x hl with ⟨s, hsmem, hsname, hxin⟩
      rcases cosFold_preserves cfg ys (cosProcessSeg cfg st x) s hsmem with
        ⟨s2, hs2, hname2, hsub2⟩
      exact ⟨s2, hs2, hname2.trans hsname, hsub2 x hxin⟩
    · exact ih (cosProcessSeg cfg st y) x hx hl

/-- The per-file fold of `createOutputSegments` preserves existing segments. -/
theorem cosFilesFold_preserves (cfg : CosCfg) (fs : List ObjFileM) :
    ∀ (st : CosState), ∀ s ∈ st.segments,
      ∃ s2 ∈ (fs.foldl (fun st f =>
          let st1 := if f.abi ≠ "" then { st with abis := st.abis ++ [f.abi] } else st
          f.segments.foldl (cosProcessSeg cfg) st1) st).segments,
        s2.name = s.name ∧ ∀ j ∈ s.inputs, j ∈ s2.inputs := by
  induction fs with
  | nil => intro st s hs; exact ⟨s, hs, rfl, fun j hj => hj⟩
  | cons f fs ih =>
    intro st s hs
    have habi : (if f.abi ≠ "" then { st with abis := st.abis ++ [f.abi] } else st).segments
        = st.segments := by
      by_cases ha : f.abi ≠ "" <;> simp [ha]
    have hs1 : s ∈ (if f.abi ≠ "" then { st with abis := st.abis ++ [f.abi] } else st).segments := by
      rw [habi]; exact hs
    rcases cosFold_preserves cfg f.segments _ s hs1 with ⟨s1, hm1, hn1, hsub1⟩
    rcases ih _ s1 hm1 with ⟨s2, hm2, hn2, hsub2⟩
    exact ⟨s2, hm2, hn2.trans hn1, fun j hj => hsub2 j (hsub1 j hj)⟩

/-- Every live input segment of every object is placed into an output
segment carrying its canonical name. -/
theorem createOutputSegments_adds (cfg : CosCfg) (files : List ObjFileM) :
    ∀ f ∈ files, ∀ x ∈ f.segments, x.live = true →
      ∃ s ∈ (createOutputSegments cfg files).segments,
        s.name = getOutputDataSegmentName cfg.isPic cfg.mergeDataSegments x.name ∧
        x ∈ s.inputs := by
  have main : ∀ (fs : List ObjFileM) (st : CosState), ∀ f ∈ fs, ∀ x ∈ f.segments,
      x.live = true →
      ∃ s ∈ (fs.foldl (fun st f =>
          let st1 := if f.abi ≠ "" then { st with abis := st.abis ++ [f.abi] } else st
          f.segments.foldl (cosProcessSeg cfg) st1) st).segments,
        s.name = getOutputDataSegmentName cfg.isPic cfg.mergeDataSegments x.name ∧
        x ∈ s.inputs := by
    intro fs
    induction fs with
    | nil => intro st f hf; exact absurd hf (List.not_mem_nil f)
    | cons g gs ih =>
      intro st f hf x hx hl
      rcases List.mem_cons.mp hf with rfl | hf
      · rcases cosFold_adds cfg f.segments
            (if f.abi ≠ "" then { st with abis := st.abis ++ [f.abi] } else st) x hx hl with
          ⟨s, hm, hn, hin⟩
        rcases cosFilesFold_preserves cfg gs _ s hm with ⟨s2, hm2, hn2, hsub2⟩
        exact ⟨s2, hm2, hn2.trans hn, hsub2 x hin⟩
      · exact ih _ f hf x hx hl
  intro f hf x hx hl
  unfold createOutputSegments
  exact main files { abis := [], segments := [] } f hf x hx hl

/--
C5: for every live input segment the output segment name is computed by the
rule list, in order: PIC mode forces `.data`; names beginning `.tdata` or
`.tbss` map to `.tdata`; with data-segment merging enabled, names
beginning `.text.`/`.data.`/`.bss.`/`.rodata.` map to
`.text`/`.data`/`.bss`/`.rodata`; otherwise the name passes through.  The
resulting output segment is passive exactly when the passive-segments
config is enabled or the output name is `.tdata`.
-/
theorem claim_C5_segment_planner (cfg : CosCfg) (files : List ObjFileM) :
    (∀ pic mg n, getOutputDataSegmentName pic mg n = segNameSpec pic mg n) ∧
    (∀ s ∈ (createOutputSegments cfg files).segments,
      (s.passive = true ↔ (cfg.passiveSegments = true ∨ s.name = ".tdata")) ∧
      ∀ i ∈ s.inputs, i.live = true ∧
        getOutputDataSegmentName cfg.isPic cfg.mergeDataSegments i.name = s.name) ∧
    (∀ f ∈ files, ∀ i ∈ f.segments, i.live = true →
      ∃ s ∈ (createOutputSegments cfg files).segments,
        s.name = getOutputDataSegmentName cfg.isPic cfg.mergeDataSegments i.name ∧
        i ∈ s.inputs) := by
  exact ⟨getOutputDataSegmentName_eq_spec, createOutputSegments_inv cfg files,
    createOutputSegments_adds cfg files⟩

/--
Witness for C5 at a concrete link: one object with a live `.tdata.x`
segment, PIC off, merging on, passive segments off.  The input lands in a
passive `.tdata` output segment.
-/
theorem claim_C5_segment_planner_witness :
    ∃ s ∈ (createOutputSegments
        { isPic := false, mergeDataSegments := true, passiveSegments := false }
        [{ actions := [], notifies := [], calls := [], abi := "",
           segments := [{ name := ".tdata.x", live := true }] }]).segments,
      s.name = ".tdata" ∧ s.passive = true ∧
      ({ name := ".tdata.x", live := true } : InputSegM) ∈ s.inputs := by
  rcases (claim_C5_segment_planner
      { isPic := false, mergeDataSegments := true, passiveSegments := false }
      [{ actions := [], notifies := [], calls := [], abi := "",
         segments := [{ name := ".tdata.x", live := true }] }]).2.2
      _ (List.mem_singleton.mpr rfl) _ (List.mem_singleton.mpr rfl) rfl with
    ⟨s, hm, hn, hin⟩
  have hname : s.name = ".tdata" := by
    rw [hn]; decide
  refine ⟨s, hm, hname, ?_, hin⟩
  have := ((claim_C5_segment_planner
      { isPic := false, mergeDataSegments := true, passiveSegments := false }
      [{ actions := [], notifies := [], calls := [], abi := "",
         segments := [{ name := ".tdata.x", live := true }] }]).2.1 s hm).1
  exact this.mpr (Or.inr hname)

/-- A ULEB128 encoding is never empty. -/
theorem uleb128_ne_nil (n : Nat) : uleb128 n ≠ [] := by
  rw [uleb128]
  split <;> simp

/-- For values of 128 and above the ULEB128 encoding has at least two bytes. -/
theorem uleb128_length_ge_two (t : Nat) (h : 128 ≤ t) : 2 ≤ (uleb128 t).length := by
  rw [uleb128]
  rw [dif_neg (by omega)]
  have h2 := uleb128_ne_nil (t / 128)
  have h3 : 0 < (uleb128 (t / 128)).length := List.length_pos.mpr h2
  simp only [List.length_cons]
  omega

/--
C8: in the stack-canary prologue of both dispatchers the function-index
operand of `call current_time` is written with `writeU8`, i.e. as exactly
one raw byte; the two emitted bytes equal the opcode followed by the
required ULEB128 encoding iff the function index of `current_time` is
below 128, and for any index of 128 or more the emitted operand byte is
not the ULEB128 encoding of that index.
-/
theorem claim_C8_raw_byte_call_operand :
    (∀ t, canaryTimeCallBytes t = OPCODE_CALL :: uleb128 t ↔ t < 128) ∧
    (∀ t, 128 ≤ t → [writeU8byte t] ≠ uleb128 t) := by
  constructor
  · intro t
    constructor
    · intro h
      by_contra hlt
      have hge : 128 ≤ t := by omega
      have hlen := uleb128_length_ge_two t hge
      have : (canaryTimeCallBytes t).length = (OPCODE_CALL :: uleb128 t).length := by rw [h]
      simp only [canaryTimeCallBytes, List.length_cons, List.length_nil] at this
      omega
    · intro h
      have hm : t % 256 = t := Nat.mod_eq_of_lt (by omega)
      rw [uleb128, dif_pos h]
      simp [canaryTimeCallBytes, writeU8byte, OPCODE_CALL, hm]
  · intro t h heq
    have hlen := uleb128_length_ge_two t h
    have : ([writeU8byte t].length) = (uleb128 t).length := by rw [heq]
    simp only [List.length_cons, List.length_nil] at this
    omega

/-- Witness for C8 at the concrete indices 5 (encodable) and 200 (not). -/
theorem claim_C8_raw_byte_call_operand_witness :
    canaryTimeCallBytes 5 = OPCODE_CALL :: uleb128 5 ∧ [writeU8byte 200] ≠ uleb128 200 :=
  ⟨(claim_C8_raw_byte_call_operand.1 5).mpr (by omega),
   claim_C8_raw_byte_call_operand.2 200 (by omega)⟩

/-- Folding a totally-successful parse through `foldlM` is a plain fold. -/
theorem foldlM_total_parse {α : Type} (f : String → α) (merge : α → α → α) :
    ∀ (l : List String) (seed : α),
      l.foldlM (fun st a => (((fun s => some (f s)) a).map (fun x => merge st x))) seed
        = some (l.foldl (fun st a => merge st (f a)) seed) := by
  intro l
  induction l with
  | nil => intro seed; rfl
  | cons a as ih =>
    intro seed
    simp only [List.foldlM, List.foldl]
    exact ih (merge seed (f a))

/--
C2: when the per-link ABI list is non-empty (and every ABI parses), the
merger is seeded with the parse of the *last* ABI in the list, every ABI
in the list — the seed included — is folded through `merge`, and the
resulting JSON string is written to the output path with its extension
replaced by `.abi`; when the ABI list is empty no `.abi` file is created.
-/
theorem claim_C2_write_abi {α : Type} (f : String → α) (merge : α → α → α)
    (toStr : α → String) (abis : List String) (out : String) :
    (abis = [] → writeABI (fun s => some (f s)) merge toStr abis out = .skipped) ∧
    (∀ last, abis.getLast? = some last →
      writeABI (fun s => some (f s)) merge toStr abis out =
        .wrote (replaceExtensionAbi out)
          (toStr (abis.foldl (fun st a => merge st (f a)) (f last)))) := by
  constructor
  · intro h
    subst h
    rfl
  · intro last hl
    unfold writeABI
    rw [hl]
    show (match abis.foldlM (fun st a => (((fun s => some (f s)) a).map (fun x => merge st x))) (f last) with
      | none => AbiResult.warned
      | some final => AbiResult.wrote (replaceExtensionAbi out) (toStr final)) = _
    rw [foldlM_total_parse f merge abis (f last)]

/-- Witness for C2: two ABIs, length-sum as the merge, seeded with the last. -/
theorem claim_C2_write_abi_witness :
    writeABI (fun s => some s.length) (fun x y => x + y) (fun n => toString n)
        ["a", "bb"] "t.wasm" =
      .wrote (replaceExtensionAbi "t.wasm")
        (toString ((["a", "bb"].foldl (fun st a => st + a.length) ("bb").length))) :=
  (claim_C2_write_abi (fun s => s.length) (fun x y => x + y) (fun n => toString n)
    ["a", "bb"] "t.wasm").2 "bb" rfl

/-- Rounding up to a positive alignment never decreases a value. -/
theorem le_alignTo (v a : Nat) (ha : 0 < a) : v ≤ alignTo v a := by
  have h := Nat.lt_div_mul_add (a := v + a - 1) (b := a) ha
  unfold alignTo
  generalize (v + a - 1) / a * a = X at h ⊢
  omega

/--
C4 counterexample: the claim `__heap_base.VA ≥ __data_end.VA + zStackSize`
(for non-stack-first, non-shared, error-free links) fails for relocatable
output, where `placeStack` returns without placing the stack: with
`zStackSize = 16` and no data, both symbols get VA 0.
-/
theorem claim_C4_counterexample :
    ¬ (memCfgCex.shared = false → (layoutMemory memCfgCex []).errors = [] →
       ∀ hb de, (layoutMemory memCfgCex []).heapBase = some hb →
         (layoutMemory memCfgCex []).dataEnd = some de →
         de + (if memCfgCex.stackFirst then 0 else memCfgCex.zStackSize) ≤ hb ∧
         (memCfgCex.initialMemory ≠ 0 → hb ≤ memCfgCex.initialMemory)) := by
  intro h
  have h2 := (h rfl (by decide) 0 0 (by decide) (by decide)).1
  revert h2
  decide

/-- A conditional append yielding the empty list forces the base empty. -/
theorem ifAppend_eq_nil {c : Prop} [Decidable c] (l m : List String)
    (h : (if c then l ++ m else l) = []) : l = [] := by
  split at h
  · exact (List.append_eq_nil.mp h).1
  · exact h

/-- Heap-base bounds for the tail of `layoutMemory`, over an arbitrary
post-segment memory pointer `p1`. -/
theorem layoutMemoryTail_heap (cfg : MemCfg) (dataStart p1 : Nat) (errs0 : List String)
    (sp0 : Option Nat) (memAlign : Nat) (segVAs : List (SegL × Nat))
    (tlsSizeInit : Option Nat) (hb de : Nat)
    (hsh : cfg.shared = false)
    (herr : (layoutMemoryTail cfg dataStart p1 errs0 sp0 memAlign segVAs tlsSizeInit).errors = [])
    (hhb : (layoutMemoryTail cfg dataStart p1 errs0 sp0 memAlign segVAs tlsSizeInit).heapBase = some hb)
    (hde : (layoutMemoryTail cfg dataStart p1 errs0 sp0 memAlign segVAs tlsSizeInit).dataEnd = some de)
    (hnw : alignTo de stackAlignment + cfg.zStackSize < 2 ^ 32) :
    de + (if cfg.stackFirst = false ∧ cfg.relocatable = false ∧ cfg.isPic = false
          then cfg.zStackSize else 0) ≤ hb ∧
    (cfg.initialMemory ≠ 0 → hb ≤ cfg.initialMemory) := by
  have hshc : ¬ (cfg.shared = true) := by simp [hsh]
  dsimp only [layoutMemoryTail] at herr hhb hde
  rw [if_neg hshc] at herr hhb hde
  dsimp only at herr hhb hde
  have hpde : de = p1 := by
    by_cases hD : cfg.hasDataEnd = true
    · rw [if_pos hD] at hde
      exact (Option.some.injEq _ _ ▸ hde).symm
    · rw [if_neg hD] at hde; simp at hde
  subst hpde
  have hp2 : (if cfg.stackFirst = true then (de, errs0, sp0)
      else placeStack cfg de errs0).1 = hb := by
    by_cases hH : cfg.hasHeapBase = true
    · rw [if_pos hH] at hhb
      exact Option.some.injEq _ _ ▸ hhb
    · rw [if_neg hH] at hhb; simp at hhb
  have hmain : de + (if cfg.stackFirst = false ∧ cfg.relocatable = false ∧ cfg.isPic = false
      then cfg.zStackSize else 0) ≤ hb := by
    by_cases hsf : cfg.stackFirst = true
    · rw [if_pos hsf] at hp2
      dsimp only at hp2
      rw [if_neg (by simp [hsf])]
      omega
    · rw [if_neg hsf] at hp2
      have hsf2 : cfg.stackFirst = false := by
        revert hsf; cases cfg.stackFirst <;> simp
      by_cases hrp : (cfg.relocatable || cfg.isPic) = true
      · unfold placeStack at hp2
        rw [if_pos (by simpa using hrp)] at hp2
        dsimp only at hp2
        have hcond : ¬ (cfg.stackFirst = false ∧ cfg.relocatable = false ∧ cfg.isPic = false) := by
          rcases (Bool.or_eq_true _ _).mp hrp with h | h
          · intro hc; rw [hc.2.1] at h; cases h
          · intro hc; rw [hc.2.2] at h; cases h
        rw [if_neg hcond]
        omega
      · have hr : cfg.relocatable = false := by
          revert hrp; cases cfg.relocatable <;> simp
        have hpc : cfg.isPic = false := by
          revert hrp; cases cfg.isPic <;> simp
        unfold placeStack at hp2
        rw [if_neg (by simp [hr, hpc])] at hp2
        dsimp only at hp2
        rw [if_pos ⟨hsf2, hr, hpc⟩]
        simp only [w32] at hp2
        have h1 : alignTo de stackAlignment < 2 ^ 32 := by omega
        rw [Nat.mod_eq_of_lt h1, Nat.mod_eq_of_lt hnw] at hp2
        have h3 := le_alignTo de stackAlignment (by decide)
        omega
  refine ⟨hmain, ?_⟩
  intro him
  by_contra hgt
  push_neg at hgt
  rw [hp2] at herr
  have hcond : cfg.initialMemory ≠ 0 ∧ hb > cfg.initialMemory := ⟨him, hgt⟩
  have herr4 := ifAppend_eq_nil _ _ herr
  have herr3 := ifAppend_eq_nil _ _ herr4
  rw [if_pos hcond] at herr3
  simp at herr3

/--
C4 (amended): for every non-shared link that raises no error, whenever the
stack is actually placed after the data — `stackFirst`, `relocatable` and
`isPic` all false — and the stack placement does not wrap the 32-bit
memory pointer, the VA of a live `__heap_base` is at least the VA of
`__data_end` plus `zStackSize` (plus 0 in all other configurations, in
particular under `--stack-first`); and the VA of `__heap_base` is at most
`initialMemory` whenever `initialMemory` is non-zero.
-/
theorem claim_C4_amended_heap_bounds (cfg : MemCfg) (segs : List SegL) (hb de : Nat)
    (hsh : cfg.shared = false)
    (herr : (layoutMemory cfg segs).errors = [])
    (hhb : (layoutMemory cfg segs).heapBase = some hb)
    (hde : (layoutMemory cfg segs).dataEnd = some de)
    (hnw : alignTo de stackAlignment + cfg.zStackSize < 2 ^ 32) :
    de + (if cfg.stackFirst = false ∧ cfg.relocatable = false ∧ cfg.isPic = false
          then cfg.zStackSize else 0) ≤ hb ∧
    (cfg.initialMemory ≠ 0 → hb ≤ cfg.initialMemory) := by
  dsimp only [layoutMemory] at herr hhb hde
  exact layoutMemoryTail_heap cfg _ _ _ _ _ _ _ hb de hsh herr hhb hde hnw

/-- Witness for the amended C4 at a concrete non-relocatable link. -/
theorem claim_C4_amended_heap_bounds_witness :
    1024 + (16 : Nat) ≤ 1040 ∧ ((65536 : Nat) ≠ 0 → (1040 : Nat) ≤ 65536) := by
  have h := claim_C4_amended_heap_bounds
    { globalBase := 1024, zStackSize := 16, initialMemory := 65536, maxMemory := 0,
      stackFirst := false, relocatable := false, isPic := false, shared := false,
      sharedMemory := false, hasGlobalBase := false, hasDsoHandle := false,
      hasDataEnd := true, hasHeapBase := true, hasTlsSize := false }
    [] 1040 1024 rfl (by decide) (by decide) (by decide) (by decide)
  simp only [Bool.false_eq_true] at h
  exact ⟨by simp at h; omega, fun _ => by omega⟩

/-- Membership in a stable insertion. -/
theorem mem_prInsert (x : InitEntry) : ∀ (l : List InitEntry) (y : InitEntry),
    y ∈ prInsert x l ↔ y = x ∨ y ∈ l := by
  intro l
  induction l with
  | nil => intro y; simp [prInsert]
  | cons z zs ih =>
    intro y
    unfold prInsert
    by_cases hc : z.priority < x.priority
    · rw [if_pos hc]
      rw [List.mem_cons, ih y, List.mem_cons]
      tauto
    · rw [if_neg hc]
      rw [List.mem_cons]

/-- Stable insertion preserves ascending-priority sortedness. -/
theorem prInsert_pairwise (x : InitEntry) : ∀ (l : List InitEntry),
    l.Pairwise (fun a b => a.priority ≤ b.priority) →
    (prInsert x l).Pairwise (fun a b => a.priority ≤ b.priority) := by
  intro l
  induction l with
  | nil => intro _; simp [prInsert]
  | cons y ys ih =>
    intro h
    rw [List.pairwise_cons] at h
    unfold prInsert
    by_cases hc : y.priority < x.priority
    · rw [if_pos hc]
      rw [List.pairwise_cons]
      refine ⟨?_, ih h.2⟩
      intro z hz
      rcases (mem_prInsert x ys z).mp hz with rfl | hz2
      · omega
      · exact h.1 z hz2
    · rw [if_neg hc]
      rw [List.pairwise_cons]
      refine ⟨?_, List.pairwise_cons.mpr h⟩
      intro z hz
      rcases List.mem_cons.mp hz with rfl | hz2
      · omega
      · have := h.1 z hz2; omega

/-- The insertion sort is sorted by ascending priority. -/
theorem insSortInit_pairwise : ∀ (l : List InitEntry),
    (insSortInit l).Pairwise (fun a b => a.priority ≤ b.priority) := by
  intro l
  induction l with
  | nil => simp [insSortInit]
  | cons a as ih => exact prInsert_pairwise a (insSortInit as) ih

/-- Per-priority filtering through a stable insertion: the inserted element
lands in front of all equal-priority entries already present. -/
theorem filter_prInsert (p : Nat) (x : InitEntry) : ∀ (l : List InitEntry),
    (prInsert x l).filter (fun e => e.priority == p)
      = if x.priority = p then x :: l.filter (fun e => e.priority == p)
        else l.filter (fun e => e.priority == p) := by
  intro l
  induction l with
  | nil =>
    unfold prInsert
    by_cases hx : x.priority = p
    · rw [if_pos hx]; simp [List.filter_cons, hx]
    · rw [if_neg hx]; simp [List.filter_cons, hx]
  | cons y ys ih =>
    unfold prInsert
    by_cases hc : y.priority < x.priority
    · rw [if_pos hc]
      by_cases hx : x.priority = p <;> by_cases hy : y.priority = p
      · exfalso; omega
      · simp [List.filter_cons, ih, hx, hy]
      · simp [List.filter_cons, ih, hx, hy]
      · simp [List.filter_cons, ih, hx, hy]
    · rw [if_neg hc]
      by_cases hx : x.priority = p <;> simp [List.filter_cons, hx]

/-- Per-priority filtering is invariant under the stable sort: equal-priority
entries keep their original relative order. -/
theorem filter_insSortInit (p : Nat) : ∀ (l : List InitEntry),
    (insSortInit l).filter (fun e => e.priority == p)
      = l.filter (fun e => e.priority == p) := by
  intro l
  induction l with
  | nil => rfl
  | cons a as ih =>
    show (prInsert a (insSortInit as)).filter (fun e => e.priority == p) = _
    rw [filter_prInsert p a (insSortInit as), ih]
    by_cases ha : a.priority = p
    · rw [if_pos ha]
      simp [List.filter_cons, ha]
    · rw [if_neg ha]
      simp [List.filter_cons, ha]

/--
C7: the collected init-function list is stable-sorted by ascending
priority — the result is pairwise-ascending, and for every priority the
subsequence of entries of that priority equals the discovery-ordered
subsequence across object files — and the synthesized `__wasm_call_ctors`
body consists, in order, of a call to `__wasm_init_memory` when passive
segments are enabled, a call to `__wasm_apply_relocs` when PIC, one call
per init function in the sorted order, and the terminating `END`.
-/
theorem claim_C7_init_function_order (cfg : CtorsCfg) (files : List ObjInitData)
    (hlive : cfg.callCtorsLive = true) :
    (calculateInitFunctions cfg files).Pairwise (fun a b => a.priority ≤ b.priority) ∧
    (∀ p, (calculateInitFunctions cfg files).filter (fun e => e.priority == p)
        = (collectInitFunctions files).filter (fun e => e.priority == p)) ∧
    createCallCtorsFunction cfg (calculateInitFunctions cfg files) = some
      { localDecls := [],
        code := (if cfg.passiveSegments then [Instr.call cfg.initMemoryIdx] else []) ++
                (if cfg.isPic then [Instr.call cfg.applyRelocsIdx] else []) ++
                (calculateInitFunctions cfg files).map (fun f => Instr.call f.funcIdx) ++
                [Instr.endv] } := by
  have hgate : calculateInitFunctions cfg files = insSortInit (collectInitFunctions files) := by
    unfold calculateInitFunctions
    rw [if_neg (by simp [hlive])]
  refine ⟨?_, ?_, ?_⟩
  · rw [hgate]; exact insSortInit_pairwise _
  · intro p; rw [hgate]; exact filter_insSortInit p _
  · unfold createCallCtorsFunction
    rw [if_neg (by simp [hlive])]

/-- Witness for C7: two objects with priorities 5, 1 and 1 — ties keep
discovery order and the body lists the calls in sorted order. -/
theorem claim_C7_init_function_order_witness :
    (calculateInitFunctions
      { relocatable := false, callCtorsLive := true, passiveSegments := false,
        isPic := false, initMemoryIdx := 0, applyRelocsIdx := 0 }
      [{ initFuncs := [{ priority := 5, funcIdx := 10, discarded := false, sigOk := true },
                       { priority := 1, funcIdx := 11, discarded := false, sigOk := true }] },
       { initFuncs := [{ priority := 1, funcIdx := 12, discarded := false, sigOk := true }] }]).Pairwise
      (fun a b => a.priority ≤ b.priority) ∧
    (∀ p, (calculateInitFunctions
      { relocatable := false, callCtorsLive := true, passiveSegments := false,
        isPic := false, initMemoryIdx := 0, applyRelocsIdx := 0 }
      [{ initFuncs := [{ priority := 5, funcIdx := 10, discarded := false, sigOk := true },
                       { priority := 1, funcIdx := 11, discarded := false, sigOk := true }] },
       { initFuncs := [{ priority := 1, funcIdx := 12, discarded := false, sigOk := true }] }]).filter
        (fun e => e.priority == p)
      = (collectInitFunctions
      [{ initFuncs := [{ priority := 5, funcIdx := 10, discarded := false, sigOk := true },
                       { priority := 1, funcIdx := 11, discarded := false, sigOk := true }] },
       { initFuncs := [{ priority := 1, funcIdx := 12, discarded := false, sigOk := true }] }]).filter
        (fun e => e.priority == p)) ∧
    createCallCtorsFunction
      { relocatable := false, callCtorsLive := true, passiveSegments := false,
        isPic := false, initMemoryIdx := 0, applyRelocsIdx := 0 }
      (calculateInitFunctions
        { relocatable := false, callCtorsLive := true, passiveSegments := false,
          isPic := false, initMemoryIdx := 0, applyRelocsIdx := 0 }
        [{ initFuncs := [{ priority := 5, funcIdx := 10, discarded := false, sigOk := true },
                         { priority := 1, funcIdx := 11, discarded := false, sigOk := true }] },
         { initFuncs := [{ priority := 1, funcIdx := 12, discarded := false, sigOk := true }] }]) = some
      { localDecls := [],
        code := (if false then [Instr.call 0] else []) ++
                (if false then [Instr.call 0] else []) ++
                ((calculateInitFunctions
        { relocatable := false, callCtorsLive := true, passiveSegments := false,
          isPic := false, initMemoryIdx := 0, applyRelocsIdx := 0 }
        [{ initFuncs := [{ priority := 5, funcIdx := 10, discarded := false, sigOk := true },
                         { priority := 1, funcIdx := 11, discarded := false, sigOk := true }] },
         { initFuncs := [{ priority := 1, funcIdx := 12, discarded := false, sigOk := true }] }]).map
           (fun f => Instr.call f.funcIdx)) ++
                [Instr.endv] } :=
  claim_C7_init_function_order
    { relocatable := false, callCtorsLive := true, passiveSegments := false,
      isPic := false, initMemoryIdx := 0, applyRelocsIdx := 0 }
    [{ initFuncs := [{ priority := 5, funcIdx := 10, discarded := false, sigOk := true },
                     { priority := 1, funcIdx := 11, discarded := false, sigOk := true }] },
     { initFuncs := [{ priority := 1, funcIdx := 12, discarded := false, sigOk := true }] }]
    rfl

/--
C9 counterexample: `__wasm_call_ctors` present in the symbol table with
function index 0 — the dispatcher body contains no call to it at all,
because the emitter additionally requires `ctors_idx != 0`.
-/
theorem claim_C9_counterexample_ctors_idx_zero :
    ∃ body, createDispatchFunction envC9 = .ok body ∧
      envC9.findF "__wasm_call_ctors" = some 0 ∧
      Instr.call 0 ∉ body.code := by
  refine ⟨_, rfl, rfl, ?_⟩
  decide

/--
C9 (amended): in the synthesized action/notification dispatcher body, if
`__wasm_call_ctors` is present in the symbol table *and its function index
is non-zero*, a call to it is emitted immediately after the
`eosio_set_contract_name` call; and if `__cxa_finalize` is present *with a
non-zero index below the symbol-table size*, a `__cxa_finalize(NULL)`
sequence (`i32.const 0` then `call`) is emitted in the epilogue, right
before the closing `END`(s).
-/
theorem claim_C9_amended_ctors_dtors (env : LinkEnv) (body : FuncBody) (cIdx : Nat)
    (hok : createDispatchFunction env = .ok body)
    (hc : env.findF "eosio_set_contract_name" = some cIdx) :
    (∀ i, env.findF "__wasm_call_ctors" = some i → i ≠ 0 →
      body.code.take 3 = [Instr.getLocal 0, Instr.call cIdx, Instr.call i]) ∧
    (∀ j, env.findF "__cxa_finalize" = some j → j ≠ 0 → j < env.nsyms →
      ∃ pre, body.code = pre ++ [Instr.i32const 0, Instr.call j] ++
        (match env.findF "pre_dispatch" with | some _ => [Instr.endv] | none => []) ++
        [Instr.endv]) := by
  unfold createDispatchFunction at hok
  rw [hc] at hok
  cases hcan : (if env.stackCanary then canaryProlog env else Except.ok []) with
  | error e => rw [hcan] at hok; exact absurd hok (by simp)
  | ok canp =>
    rw [hcan] at hok
    cases hact : createActionDispatch env with
    | error e => rw [hact] at hok; exact absurd hok (by simp)
    | ok act =>
      rw [hact] at hok
      cases hnot : createNotifyDispatch env with
      | error e => rw [hnot] at hok; exact absurd hok (by simp)
      | ok noti =>
        rw [hnot] at hok
        cases hepi : (if env.stackCanary then canaryEpilog env else Except.ok []) with
        | error e => rw [hepi] at hok; exact absurd hok (by simp)
        | ok epi =>
          rw [hepi] at hok
          have hbody : body =
              { localDecls := [],
                code := [Instr.getLocal 0, .call cIdx] ++
                  (match env.findF "__wasm_call_ctors" with
                   | some i => if i ≠ 0 then [Instr.call i] else []
                   | none => []) ++ canp ++
                  (match env.findF "pre_dispatch" with
                   | some p => [Instr.getLocal 0, .getLocal 1, .getLocal 2, .call p, .ifv]
                   | none => []) ++
                  [Instr.getLocal 0, .getLocal 1, .i64eq, .ifv] ++
                  act ++ [Instr.elsev] ++ noti ++ [Instr.endv] ++ epi ++
                  (match env.findF "__cxa_finalize" with
                   | some i => if i ≠ 0 ∧ i < env.nsyms then [Instr.i32const 0, Instr.call i] else []
                   | none => []) ++
                  (match env.findF "pre_dispatch" with
                   | some _ => [Instr.endv]
                   | none => []) ++ [Instr.endv] } := by
            have h2 := hok
            simp only [Except.ok.injEq] at h2
            exact h2.symm
          subst hbody
          constructor
          · intro i hi hne
            simp only [hi]
            rw [if_pos hne]
            simp [List.cons_append]
          · intro j hj hne hlt
            simp only [hj]
            rw [if_pos ⟨hne, hlt⟩]
            refine ⟨[Instr.getLocal 0, Instr.call cIdx] ++
              (match env.findF "__wasm_call_ctors" with
               | some i => if i ≠ 0 then [Instr.call i] else []
               | none => []) ++ canp ++
              (match env.findF "pre_dispatch" with
               | some p => [Instr.getLocal 0, .getLocal 1, .getLocal 2, .call p, .ifv]
               | none => []) ++
              [Instr.getLocal 0, .getLocal 1, .i64eq, .ifv] ++
              act ++ [Instr.elsev] ++ noti ++ [Instr.endv] ++ epi, ?_⟩
            simp [List.append_assoc]

/-- Witness for the amended C9: ctors at index 3, finalize at index 4. -/
theorem claim_C9_amended_ctors_dtors_witness :
    ∃ body, createDispatchFunction envC9b = .ok body ∧
      body.code.take 3 = [Instr.getLocal 0, Instr.call 5, Instr.call 3] ∧
      (∃ pre, body.code = pre ++ [Instr.i32const 0, Instr.call 4] ++ [] ++ [Instr.endv]) := by
  obtain ⟨body, hok⟩ : ∃ b, createDispatchFunction envC9b = Except.ok b := ⟨_, rfl⟩
  have h := claim_C9_amended_ctors_dtors envC9b body 5 hok rfl
  refine ⟨body, hok, h.1 3 rfl (by omega), ?_⟩
  exact h.2 4 rfl (by omega) (by decide)

/--
C10: when the action/notification dispatcher is synthesized, a missing
`current_time` with stack canaries enabled is a fatal link failure, and a
missing `eosio_assert_code` — or one whose function index is not below the
symbol-table size — is a fatal link failure.
-/
theorem claim_C10_fatal_missing_helpers (env : LinkEnv) :
    (env.stackCanary = true → env.findF "current_time" = none →
      ∃ e, createDispatchFunction env = .error e) ∧
    ((env.findF "eosio_assert_code" = none ∨
      (∃ a, env.findF "eosio_assert_code" = some a ∧ ¬ a < env.nsyms)) →
      ∃ e, createDispatchFunction env = .error e) := by
  constructor
  · intro hsc htime
    have hpro : canaryProlog env = .error "internal error, current_time not found" := by
      unfold canaryProlog
      rw [htime]
    cases h1 : env.findF "eosio_set_contract_name" with
    | none => exact ⟨_, by unfold createDispatchFunction; rw [h1]⟩
    | some cIdx =>
      refine ⟨"internal error, current_time not found", ?_⟩
      unfold createDispatchFunction
      rw [h1, hsc]
      rw [if_pos rfl, hpro]
  · intro hass
    have hfatal : ∃ e, createActionDispatch env = .error e := by
      unfold createActionDispatch
      cases hch : actionChainGo env [] false (env.objs.flatMap (fun o => o.actions)) with
      | error e => exact ⟨e, rfl⟩
      | ok r =>
        rcases hass with hnone | ⟨a, ha, hlt⟩
        · rw [hnone]
          exact ⟨_, rfl⟩
        · rw [ha]
          dsimp only
          rw [if_neg hlt]
          exact ⟨_, rfl⟩
    rcases hfatal with ⟨e, he⟩
    cases h1 : env.findF "eosio_set_contract_name" with
    | none => exact ⟨_, by unfold createDispatchFunction; rw [h1]⟩
    | some cIdx =>
      cases hcan : (if env.stackCanary then canaryProlog env else Except.ok []) with
      | error e2 =>
        exact ⟨e2, by unfold createDispatchFunction; rw [h1, hcan]⟩
      | ok canp =>
        exact ⟨e, by unfold createDispatchFunction; rw [h1, hcan, he]⟩

/-- Witness for C10: canary on with no `current_time`, and a missing
`eosio_assert_code`, each make the emitter fail. -/
theorem claim_C10_fatal_missing_helpers_witness :
    (∃ e, createDispatchFunction
      { findF := fun s => if s = "eosio_set_contract_name" then some 5 else none,
        findG := fun _ => none, nsyms := 10, stackCanary := true,
        objs := [] } = .error e) ∧
    (∃ e, createDispatchFunction
      { findF := fun s => if s = "eosio_set_contract_name" then some 5 else none,
        findG := fun _ => none, nsyms := 10, stackCanary := false,
        objs := [] } = .error e) :=
  ⟨(claim_C10_fatal_missing_helpers _).1 rfl rfl,
   (claim_C10_fatal_missing_helpers _).2 (Or.inl rfl)⟩

/-- The canary prologue emitted once its three lookups succeed. -/
theorem canaryProlog_eq (env : LinkEnv) (g de timeIdx : Nat)
    (ht : env.findF "current_time" = some timeIdx)
    (hg : env.findG "__stack_canary" = some g)
    (hde : env.findG "__data_end" = some de) :
    canaryProlog env = .ok (canaryPrologCode g de timeIdx) := by
  unfold canaryProlog
  rw [ht, hg, hde]

/-- The canary epilogue emitted once its three lookups succeed. -/
theorem canaryEpilog_eq (env : LinkEnv) (g de aIdx : Nat)
    (hg : env.findG "__stack_canary" = some g)
    (hde : env.findG "__data_end" = some de)
    (ha : env.findF "eosio_assert_code" = some aIdx) :
    canaryEpilog env = .ok (canaryEpilogCode g de aIdx) := by
  unfold canaryEpilog
  rw [ha, hg, hde]

/-- Running the canary prologue: `current_time` is called, its value is
stored into the canary global and the same value is stored to linear
memory at the canary address. -/
theorem canaryProlog_exec (henv : HostEnv) (g de timeIdx : Nat) (K : List Instr) (st : St)
    (h0 : henv.arity timeIdx = 0) (h1 : henv.hasRet timeIdx = true) :
    exec henv (canaryPrologCode g de timeIdx ++ K) .run st
      = exec henv K .run
          { st with
            globals := fun k => if k = g then w64 (henv.ret timeIdx []) else st.globals k,
            mem := fun k => if k = w32 (de + 8) then w64 (henv.ret timeIdx [])
                            else st.mem k,
            events := st.events ++ [Event.call timeIdx []] } := by
  simp [canaryPrologCode, exec, h0, h1]

/-- Running the canary epilogue on a tampered state: the reloaded value
disagrees with the canary global, so `eosio_assert_code(0,
EOSIO_CANARY_FAILURE)` is called. -/
theorem canaryEpilog_exec_mismatch (henv : HostEnv) (g de aIdx : Nat) (K : List Instr)
    (st : St) (h0 : henv.arity aIdx = 2) (h1 : henv.hasRet aIdx = false)
    (hne : st.globals g ≠ w64 (st.mem (w32 (de + 8)))) :
    exec henv (canaryEpilogCode g de aIdx ++ K) .run st
      = exec henv K .run
          { st with events := st.events ++ [Event.call aIdx [0, EOSIO_CANARY_FAILURE]] } := by
  have hc : w64 EOSIO_CANARY_FAILURE = EOSIO_CANARY_FAILURE := by decide
  have hz : w32 0 = 0 := by decide
  simp [canaryEpilogCode, exec, h0, h1, hne, hc, hz]

/-- Running the canary epilogue on an intact state: no assert is reached
and the state is unchanged. -/
theorem canaryEpilog_exec_intact (henv : HostEnv) (g de aIdx : Nat) (K : List Instr)
    (st : St) (heq : st.globals g = w64 (st.mem (w32 (de + 8)))) :
    exec henv (canaryEpilogCode g de aIdx ++ K) .run st = exec henv K .run st := by
  simp [canaryEpilogCode, exec, heq]

/--
C1: with `stackCanary` enabled, the action/notification dispatcher body
contains the canary prologue and epilogue; the prologue calls
`current_time`, stores the result into the `__stack_canary` global and
writes that same 64-bit value to linear memory at address
`__data_end + 8` with `i64.store` (alignment immediate 3, i.e. align=8);
the epilogue reloads the 64-bit value from that same address, compares it
with `__stack_canary`, calls `eosio_assert_code(0, 8000000000000000002)`
on mismatch and does nothing on a match.  (The byte-level encoding of the
prologue's `call` operand is valid only for `current_time` indices below
128 — see C8 — whence the `timeIdx < 128` hypothesis.)
-/
theorem claim_C1_stack_canary (env : LinkEnv) (g de timeIdx aIdx : Nat)
    (hsc : env.stackCanary = true)
    (hg : env.findG "__stack_canary" = some g)
    (hdeg : env.findG "__data_end" = some de)
    (ht : env.findF "current_time" = some timeIdx)
    (ha : env.findF "eosio_assert_code" = some aIdx)
    (htb : timeIdx < 128) :
    (∀ body, createDispatchFunction env = .ok body →
      ∃ A B C, body.code = A ++ canaryPrologCode g de timeIdx ++ B ++
        canaryEpilogCode g de aIdx ++ C) ∧
    (∀ (henv : HostEnv) (K : List Instr) (st : St),
      henv.arity timeIdx = 0 → henv.hasRet timeIdx = true →
      exec henv (canaryPrologCode g de timeIdx ++ K) .run st
        = exec henv K .run
            { st with
              globals := fun k => if k = g then w64 (henv.ret timeIdx []) else st.globals k,
              mem := fun k => if k = w32 (de + 8) then w64 (henv.ret timeIdx [])
                              else st.mem k,
              events := st.events ++ [Event.call timeIdx []] }) ∧
    (∀ (henv : HostEnv) (K : List Instr) (st : St),
      henv.arity aIdx = 2 → henv.hasRet aIdx = false →
      st.globals g ≠ w64 (st.mem (w32 (de + 8))) →
      exec henv (canaryEpilogCode g de aIdx ++ K) .run st
        = exec henv K .run
            { st with events := st.events ++ [Event.call aIdx [0, EOSIO_CANARY_FAILURE]] }) ∧
    (∀ (henv : HostEnv) (K : List Instr) (st : St),
      st.globals g = w64 (st.mem (w32 (de + 8))) →
      exec henv (canaryEpilogCode g de aIdx ++ K) .run st = exec henv K .run st) := by
  refine ⟨?_, fun henv K st h0 h1 => canaryProlog_exec henv g de timeIdx K st h0 h1,
    fun henv K st h0 h1 hne => canaryEpilog_exec_mismatch henv g de aIdx K st h0 h1 hne,
    fun henv K st heq => canaryEpilog_exec_intact henv g de aIdx K st heq⟩
  intro body hok
  have hif1 : (if env.stackCanary then canaryProlog env else Except.ok [])
      = Except.ok (canaryPrologCode g de timeIdx) := by
    rw [hsc, if_pos rfl]
    exact canaryProlog_eq env g de timeIdx ht hg hdeg
  have hif2 : (if env.stackCanary then canaryEpilog env else Except.ok [])
      = Except.ok (canaryEpilogCode g de aIdx) := by
    rw [hsc, if_pos rfl]
    exact canaryEpilog_eq env g de aIdx hg hdeg ha
  unfold createDispatchFunction at hok
  cases hcf : env.findF "eosio_set_contract_name" with
  | none => rw [hcf] at hok; exact absurd hok (by simp)
  | some cIdx =>
    rw [hcf, hif1] at hok
    cases hact : createActionDispatch env with
    | error e => rw [hact] at hok; exact absurd hok (by simp)
    | ok act =>
      rw [hact] at hok
      cases hnot : createNotifyDispatch env with
      | error e => rw [hnot] at hok; exact absurd hok (by simp)
      | ok noti =>
        rw [hnot, hif2] at hok
        have h2 := hok
        simp only [Except.ok.injEq] at h2
        refine ⟨[Instr.getLocal 0, .call cIdx] ++
          (match env.findF "__wasm_call_ctors" with
           | some i => if i ≠ 0 then [Instr.call i] else []
           | none => []), ?_⟩
        refine ⟨(match env.findF "pre_dispatch" with
           | some p => [Instr.getLocal 0, .getLocal 1, .getLocal 2, .call p, .ifv]
           | none => []) ++
          [Instr.getLocal 0, .getLocal 1, .i64eq, .ifv] ++
          act ++ [Instr.elsev] ++ noti ++ [Instr.endv], ?_⟩
        refine ⟨(match env.findF "__cxa_finalize" with
           | some i => if i ≠ 0 ∧ i < env.nsyms then [Instr.i32const 0, Instr.call i] else []
           | none => []) ++
          (match env.findF "pre_dispatch" with
           | some _ => [Instr.endv]
           | none => []) ++ [Instr.endv], ?_⟩
        rw [← h2]
        simp [List.append_assoc]

/-- Witness for C1: a concrete canary-enabled link and a tampered state in
which the epilogue reaches the canary-failure assert. -/
theorem claim_C1_stack_canary_witness :
    (∃ body, createDispatchFunction envC1 = .ok body ∧
      ∃ A B C, body.code = A ++ canaryPrologCode 2 3 9 ++ B ++
        canaryEpilogCode 2 3 6 ++ C) ∧
    exec henvC1 (canaryEpilogCode 2 3 6 ++ []) .run stC1
      = exec henvC1 [] .run
          { stC1 with events := stC1.events ++ [Event.call 6 [0, EOSIO_CANARY_FAILURE]] } := by
  have h := claim_C1_stack_canary envC1 2 3 9 6 rfl rfl rfl rfl rfl (by omega)
  obtain ⟨body, hok⟩ : ∃ b, createDispatchFunction envC1 = Except.ok b := ⟨_, rfl⟩
  exact ⟨⟨body, hok, h.1 body hok⟩,
    h.2.2.1 henvC1 [] stC1 rfl rfl (by decide)⟩

/-- Elements produced by `dedupGo` are exactly the fresh elements. -/
theorem mem_dedupGo : ∀ (l seen : List String) (x : String),
    x ∈ dedupGo seen l ↔ x ∈ l ∧ x ∉ seen := by
  intro l
  induction l with
  | nil => intro seen x; simp [dedupGo]
  | cons a as ih =>
    intro seen x
    unfold dedupGo
    by_cases hm : a ∈ seen
    · rw [if_pos hm, ih]
      constructor
      · intro ⟨h1, h2⟩; exact ⟨List.mem_cons_of_mem a h1, h2⟩
      · intro ⟨h1, h2⟩
        rcases List.mem_cons.mp h1 with rfl | h3
        · exact absurd hm h2
        · exact ⟨h3, h2⟩
    · rw [if_neg hm]
      rw [List.mem_cons, ih]
      constructor
      · intro h
        rcases h with rfl | ⟨h1, h2⟩
        · exact ⟨List.mem_cons_self _ _, hm⟩
        · refine ⟨List.mem_cons_of_mem a h1, fun hc => h2 (List.mem_cons_of_mem a hc)⟩
      · intro ⟨h1, h2⟩
        rcases List.mem_cons.mp h1 with rfl | h3
        · exact Or.inl rfl
        · by_cases hx : x = a
          · exact Or.inl hx
          · refine Or.inr ⟨h3, fun hc => ?_⟩
            rcases List.mem_cons.mp hc with h4 | h4
            · exact hx h4
            · exact h2 h4

/-- `dedupGo` returns a duplicate-free list. -/
theorem dedupGo_nodup : ∀ (l seen : List String), (dedupGo seen l).Nodup := by
  intro l
  induction l with
  | nil => intro seen; simp [dedupGo]
  | cons a as ih =>
    intro seen
    unfold dedupGo
    by_cases hm : a ∈ seen
    · rw [if_pos hm]; exact ih seen
    · rw [if_neg hm]
      rw [List.nodup_cons]
      refine ⟨fun hc => ?_, ih (a :: seen)⟩
      exact ((mem_dedupGo as (a :: seen) a).mp hc).2 (List.mem_cons_self a seen)

/-- `dedupGo` is a sublist of its input: order of first occurrences kept. -/
theorem dedupGo_sublist : ∀ (l seen : List String), (dedupGo seen l).Sublist l := by
  intro l
  induction l with
  | nil => intro seen; simp [dedupGo]
  | cons a as ih =>
    intro seen
    unfold dedupGo
    by_cases hm : a ∈ seen
    · rw [if_pos hm]; exact (ih seen).cons a
    · rw [if_neg hm]; exact (ih (a :: seen)).cons₂ a

/-- The action-dispatch loop visits exactly the first occurrences: running
it on the pre-deduplicated list yields the same result. -/
theorem actionChainGo_dedup (env : LinkEnv) : ∀ (l seen : List String) (ne : Bool),
    actionChainGo env seen ne l = actionChainGo env seen ne (dedupGo seen l) := by
  intro l
  induction l with
  | nil => intro seen ne; rfl
  | cons a as ih =>
    intro seen ne
    have e1 : ∀ (tl : List String), actionChainGo env seen ne (a :: tl)
        = (if a ∈ seen then actionChainGo env seen ne tl
           else match actionBlk env a ne with
                | .error e => .error e
                | .ok blk =>
                  match actionChainGo env (a :: seen) true tl with
                  | .error e => .error e
                  | .ok r => .ok (blk ++ r.1, r.2 + 1)) := fun tl => rfl
    have e2 : dedupGo seen (a :: as)
        = (if a ∈ seen then dedupGo seen as else a :: dedupGo (a :: seen) as) := rfl
    by_cases hm : a ∈ seen
    · rw [e2, if_pos hm, e1 as, if_pos hm]
      exact ih seen ne
    · rw [e2, if_neg hm, e1 as, e1 (dedupGo (a :: seen) as), if_neg hm, if_neg hm,
        ih (a :: seen) true]

/-- The emitted test count is the number of distinct fresh actions. -/
theorem actionChainGo_count (env : LinkEnv) : ∀ (l seen : List String) (ne : Bool)
    (chain : List Instr) (cnt : Nat),
    actionChainGo env seen ne l = .ok (chain, cnt) → cnt = (dedupGo seen l).length := by
  intro l
  induction l with
  | nil =>
    intro seen ne chain cnt h
    simp only [actionChainGo, Except.ok.injEq, Prod.mk.injEq] at h
    simp [dedupGo, ← h.2]
  | cons a as ih =>
    intro seen ne chain cnt h
    unfold actionChainGo at h
    unfold dedupGo
    by_cases hm : a ∈ seen
    · rw [if_pos hm] at h
      rw [if_pos hm]
      exact ih seen ne chain cnt h
    · rw [if_neg hm] at h
      rw [if_neg hm]
      cases hblk : actionBlk env a ne with
      | error e => rw [hblk] at h; exact absurd h (by simp)
      | ok blk =>
        rw [hblk] at h
        cases hrest : actionChainGo env (a :: seen) true as with
        | error e => rw [hrest] at h; exact absurd h (by simp)
        | ok r =>
          rw [hrest] at h
          simp only [Except.ok.injEq, Prod.mk.injEq] at h
          rw [List.length_cons, ← h.2]
          rw [ih (a :: seen) true r.1 r.2 hrest]

/-- Each emitted action test contains exactly one `i64.eq`. -/
theorem actionChainGo_i64eq_count (env : LinkEnv) : ∀ (l seen : List String) (ne : Bool)
    (chain : List Instr) (cnt : Nat),
    actionChainGo env seen ne l = .ok (chain, cnt) → chain.count Instr.i64eq = cnt := by
  intro l
  induction l with
  | nil =>
    intro seen ne chain cnt h
    simp only [actionChainGo, Except.ok.injEq, Prod.mk.injEq] at h
    rw [← h.1, ← h.2]
    rfl
  | cons a as ih =>
    intro seen ne chain cnt h
    unfold actionChainGo at h
    by_cases hm : a ∈ seen
    · rw [if_pos hm] at h
      exact ih seen ne chain cnt h
    · rw [if_neg hm] at h
      cases hblk : actionBlk env a ne with
      | error e => rw [hblk] at h; exact absurd h (by simp)
      | ok blk =>
        rw [hblk] at h
        cases hrest : actionChainGo env (a :: seen) true as with
        | error e => rw [hrest] at h; exact absurd h (by simp)
        | ok r =>
          rw [hrest] at h
          simp only [Except.ok.injEq, Prod.mk.injEq] at h
          have hb : blk.count Instr.i64eq = 1 := by
            unfold actionBlk at hblk
            cases hf : env.findF (fnOf a) with
            | none => rw [hf] at hblk; exact absurd hblk (by simp)
            | some idx =>
              rw [hf] at hblk
              simp only [Except.ok.injEq] at hblk
              rw [← hblk]
              cases ne <;> simp [List.count_cons, List.count_append]
          rw [← h.1, ← h.2, List.count_append, hb,
            ih (a :: seen) true r.1 r.2 hrest]
          omega

/-- `END` instructions are no-ops when running. -/
theorem exec_run_replicate_endv (henv : HostEnv) : ∀ (n : Nat) (K : List Instr) (st : St),
    exec henv (List.replicate n Instr.endv ++ K) .run st = exec henv K .run st := by
  intro n
  induction n with
  | zero => intro K st; rfl
  | succ m ih =>
    intro K st
    rw [List.replicate_succ]
    show exec henv (Instr.endv :: (List.replicate m Instr.endv ++ K)) .run st = _
    rw [show exec henv (Instr.endv :: (List.replicate m Instr.endv ++ K)) .run st
        = exec henv (List.replicate m Instr.endv ++ K) .run st from rfl]
    exact ih K st

/-- Skipping/failing through an action chain whose tests all mismatch:
entered at the `ELSE` of the previous test, execution falls through every
emitted test and resumes at the final `ELSE` continuation, leaving the
state untouched. -/
theorem actionChain_skip_mismatch (env : LinkEnv) (henv : HostEnv) :
    ∀ (l seen : List String) (chain : List Instr) (cnt : Nat),
    actionChainGo env seen true l = .ok (chain, cnt) →
    ∀ (K : List Instr) (st : St),
    (∀ a ∈ l, w64 (string_to_name (nameOf a)) ≠ st.locals 2) →
    exec henv (chain ++ Instr.elsev :: K) (.skipElse 0) st = exec henv K .run st := by
  intro l
  induction l with
  | nil =>
    intro seen chain cnt h K st hmism
    simp only [actionChainGo, Except.ok.injEq, Prod.mk.injEq] at h
    rw [← h.1]
    simp [exec]
  | cons a as ih =>
    intro seen chain cnt h K st hmism
    unfold actionChainGo at h
    by_cases hm : a ∈ seen
    · rw [if_pos hm] at h
      exact ih seen chain cnt h K st (fun x hx => hmism x (List.mem_cons_of_mem a hx))
    · rw [if_neg hm] at h
      cases hblk : actionBlk env a true with
      | error e => rw [hblk] at h; exact absurd h (by simp)
      | ok blk =>
        rw [hblk] at h
        cases hrest : actionChainGo env (a :: seen) true as with
        | error e => rw [hrest] at h; exact absurd h (by simp)
        | ok r =>
          rw [hrest] at h
          simp only [Except.ok.injEq, Prod.mk.injEq] at h
          unfold actionBlk at hblk
          cases hf : env.findF (fnOf a) with
          | none => rw [hf] at hblk; exact absurd hblk (by simp)
          | some idx =>
            rw [hf] at hblk
            simp only [Except.ok.injEq] at hblk
            rw [← h.1, ← hblk]
            have hmm := hmism a (List.mem_cons_self _ _)
            simp only [List.cons_append, List.append_assoc, List.nil_append,
              List.singleton_append, if_true, ite_true]
            simp [exec, hmm]
            exact ih (a :: seen) r.1 r.2 hrest K st
              (fun x hx => hmism x (List.mem_cons_of_mem a hx))

/-- Running an all-mismatching action chain from its start: execution falls
through to the continuation after the chain's `ELSE`, state untouched. -/
theorem actionChain_run_mismatch (env : LinkEnv) (henv : HostEnv) :
    ∀ (l seen : List String) (chain : List Instr) (cnt : Nat),
    actionChainGo env seen false l = .ok (chain, cnt) →
    ∀ (K : List Instr) (st : St),
    (∀ a ∈ l, w64 (string_to_name (nameOf a)) ≠ st.locals 2) →
    exec henv (chain ++ (if cnt > 0 then [Instr.elsev] else []) ++ K) .run st
      = exec henv K .run st := by
  intro l
  induction l with
  | nil =>
    intro seen chain cnt h K st hmism
    simp only [actionChainGo, Except.ok.injEq, Prod.mk.injEq] at h
    rw [← h.1, ← h.2]
    rfl
  | cons a as ih =>
    intro seen chain cnt h K st hmism
    unfold actionChainGo at h
    by_cases hm : a ∈ seen
    · rw [if_pos hm] at h
      exact ih seen chain cnt h K st (fun x hx => hmism x (List.mem_cons_of_mem a hx))
    · rw [if_neg hm] at h
      cases hblk : actionBlk env a false with
      | error e => rw [hblk] at h; exact absurd h (by simp)
      | ok blk =>
        rw [hblk] at h
        cases hrest : actionChainGo env (a :: seen) true as with
        | error e => rw [hrest] at h; exact absurd h (by simp)
        | ok r =>
          rw [hrest] at h
          simp only [Except.ok.injEq, Prod.mk.injEq] at h
          unfold actionBlk at hblk
          cases hf : env.findF (fnOf a) with
          | none => rw [hf] at hblk; exact absurd hblk (by simp)
          | some idx =>
            rw [hf] at hblk
            simp only [Except.ok.injEq] at hblk
            rw [← h.1, ← h.2, ← hblk]
            have hmm := hmism a (List.mem_cons_self _ _)
            simp only [List.cons_append, List.append_assoc, List.nil_append,
              List.singleton_append, Bool.false_eq_true, if_neg, ite_false,
              Nat.succ_le_succ, gt_iff_lt, Nat.succ_pos, if_pos, ite_true]
            simp [exec, hmm]
            have := actionChain_skip_mismatch env henv as (a :: seen) r.1 r.2 hrest K st
              (fun x hx => hmism x (List.mem_cons_of_mem a hx))
            simpa using this

/-- Shape of the action dispatch when `eosio_assert_code` is usable and no
`post_dispatch` hook exists. -/
theorem createActionDispatch_eq (env : LinkEnv) (aIdx : Nat) (r : List Instr × Nat)
    (hch : actionChainGo env [] false (env.objs.flatMap (fun o => o.actions)) = .ok r)
    (ha : env.findF "eosio_assert_code" = some aIdx) (hlt : aIdx < env.nsyms)
    (hpost : env.findF "post_dispatch" = none) :
    createActionDispatch env = .ok (r.1 ++ (if r.2 > 0 then [Instr.elsev] else []) ++
      [Instr.getLocal 0, .i64const (string_to_name "eosio"), .i64ne, .ifv] ++
      [Instr.i32const 0, .i64const EOSIO_ERROR_NO_ACTION, .call aIdx] ++
      [Instr.endv] ++ List.replicate r.2 Instr.endv) := by
  unfold createActionDispatch
  rw [hch, ha]
  dsimp only
  rw [if_pos hlt, hpost]
  simp

/-- Shape of the notification dispatch when no notification handlers are
registered: just the synthesized `eosio::onerror` guard. -/
theorem createNotifyDispatch_empty (env : LinkEnv) (aIdx : Nat)
    (hnot : env.objs.flatMap (fun o => o.notifies) = [])
    (ha : env.findF "eosio_assert_code" = some aIdx)
    (hpost : env.findF "post_dispatch" = none) :
    createNotifyDispatch env = .ok
      [Instr.i64const (string_to_name "eosio"), .getLocal 1, .i64eq, .ifv,
       .i64const (string_to_name "onerror"), .getLocal 2, .i64eq, .ifv,
       .i32const 0, .i64const EOSIO_ERROR_ONERROR, .call aIdx, .endv, .endv] := by
  unfold createNotifyDispatch
  rw [hnot]
  simp [notifyLoopGo, assertIdxOf, ha, hpost]

/-- Full dispatcher shape for a minimal configuration: no ctors call, no
canary, no hooks, no destructor, no notification handlers. -/
theorem createDispatchFunction_minimal (env : LinkEnv) (cIdx aIdx : Nat)
    (r : List Instr × Nat)
    (hcf : env.findF "eosio_set_contract_name" = some cIdx)
    (hctors : env.findF "__wasm_call_ctors" = none)
    (hpre : env.findF "pre_dispatch" = none)
    (hpost : env.findF "post_dispatch" = none)
    (hdtors : env.findF "__cxa_finalize" = none)
    (hsc : env.stackCanary = false)
    (hnot : env.objs.flatMap (fun o => o.notifies) = [])
    (ha : env.findF "eosio_assert_code" = some aIdx) (hlt : aIdx < env.nsyms)
    (hch : actionChainGo env [] false (env.objs.flatMap (fun o => o.actions)) = .ok r) :
    createDispatchFunction env = .ok
      { localDecls := [],
        code := [Instr.getLocal 0, .call cIdx] ++
          [Instr.getLocal 0, .getLocal 1, .i64eq, .ifv] ++
          (r.1 ++ (if r.2 > 0 then [Instr.elsev] else []) ++
            [Instr.getLocal 0, .i64const (string_to_name "eosio"), .i64ne, .ifv] ++
            [Instr.i32const 0, .i64const EOSIO_ERROR_NO_ACTION, .call aIdx] ++
            [Instr.endv] ++ List.replicate r.2 Instr.endv) ++ [Instr.elsev] ++
          [Instr.i64const (string_to_name "eosio"), .getLocal 1, .i64eq, .ifv,
           .i64const (string_to_name "onerror"), .getLocal 2, .i64eq, .ifv,
           .i32const 0, .i64const EOSIO_ERROR_ONERROR, .call aIdx, .endv, .endv] ++
          [Instr.endv] ++ [Instr.endv] } := by
  have hif : (if env.stackCanary then canaryProlog env else Except.ok []) = Except.ok [] := by
    rw [hsc]
    simp
  have hif2 : (if env.stackCanary then canaryEpilog env else Except.ok []) = Except.ok [] := by
    rw [hsc]
    simp
  unfold createDispatchFunction
  rw [hcf, hctors, hif, hpre,
    createActionDispatch_eq env aIdx r hch ha hlt hpost,
    createNotifyDispatch_empty env aIdx hnot ha hpost, hif2, hdtors]
  simp

/--
C6: the action dispatcher emits at most one `i64.eq` test per unique
action string — the loop behaves identically on the first-occurrence
deduplication of the concatenated action lists, that deduplication is
duplicate-free, contains exactly the declared actions and preserves their
order, and the emitted chain carries one `i64.eq` per deduplicated
action — and for a dispatcher (in the hook-free configuration), invoking
with `receiver == code`, an action matching none of the emitted tests and
a receiver different from `name("eosio")` reaches a call to
`eosio_assert_code(0, 8000000000000000000)`.
-/
theorem claim_C6_unknown_action_assert (env : LinkEnv) (cIdx aIdx : Nat)
    (hcf : env.findF "eosio_set_contract_name" = some cIdx)
    (hctors : env.findF "__wasm_call_ctors" = none)
    (hpre : env.findF "pre_dispatch" = none)
    (hpost : env.findF "post_dispatch" = none)
    (hdtors : env.findF "__cxa_finalize" = none)
    (hsc : env.stackCanary = false)
    (hnot : env.objs.flatMap (fun o => o.notifies) = [])
    (ha : env.findF "eosio_assert_code" = some aIdx)
    (hlt : aIdx < env.nsyms) :
    (actionChainGo env [] false (env.objs.flatMap (fun o => o.actions))
      = actionChainGo env [] false (dedupFirst (env.objs.flatMap (fun o => o.actions)))) ∧
    (dedupFirst (env.objs.flatMap (fun o => o.actions))).Nodup ∧
    (∀ x, x ∈ dedupFirst (env.objs.flatMap (fun o => o.actions))
      ↔ x ∈ env.objs.flatMap (fun o => o.actions)) ∧
    (dedupFirst (env.objs.flatMap (fun o => o.actions))).Sublist
      (env.objs.flatMap (fun o => o.actions)) ∧
    (∀ chain cnt,
      actionChainGo env [] false (env.objs.flatMap (fun o => o.actions)) = .ok (chain, cnt) →
      cnt = (dedupFirst (env.objs.flatMap (fun o => o.actions))).length ∧
      chain.count Instr.i64eq = cnt) ∧
    (∀ body, createDispatchFunction env = .ok body →
      ∀ (henv : HostEnv) (st : St),
      henv.arity cIdx = 1 → henv.hasRet cIdx = false →
      henv.arity aIdx = 2 → henv.hasRet aIdx = false →
      st.stack = [] →
      st.locals 0 = st.locals 1 →
      st.locals 0 ≠ w64 (string_to_name "eosio") →
      (∀ a ∈ env.objs.flatMap (fun o => o.actions),
        w64 (string_to_name (nameOf a)) ≠ st.locals 2) →
      ∃ st2, exec henv body.code .run st = .done none st2 ∧
        Event.call aIdx [0, EOSIO_ERROR_NO_ACTION] ∈ st2.events) := by
  refine ⟨actionChainGo_dedup env _ [] false, dedupGo_nodup _ [],
    fun x => by unfold dedupFirst; rw [mem_dedupGo]; simp, dedupGo_sublist _ [],
    fun chain cnt h => ⟨actionChainGo_count env _ [] false chain cnt h,
      actionChainGo_i64eq_count env _ [] false chain cnt h⟩, ?_⟩
  intro body hok henv st h1 h2 h3 h4 hstk heq01 hne0 hmism
  cases hch : actionChainGo env [] false (env.objs.flatMap (fun o => o.actions)) with
  | error e =>
    exfalso
    have hact : createActionDispatch env = .error e := by
      unfold createActionDispatch
      rw [hch]
    have hif : (if env.stackCanary then canaryProlog env else Except.ok []) = Except.ok [] := by
      rw [hsc]; simp
    unfold createDispatchFunction at hok
    rw [hcf, hif, hact] at hok
    exact absurd hok (by simp)
  | ok r =>
    have hbody := createDispatchFunction_minimal env cIdx aIdx r hcf hctors hpre hpost
      hdtors hsc hnot ha hlt hch
    rw [hbody] at hok
    simp only [Except.ok.injEq] at hok
    subst hok
    obtain ⟨stk, lcl, glb, mm, evs⟩ := st
    have hstk2 : stk = [] := hstk
    subst hstk2
    have heq01b : (if lcl 0 = lcl 1 then (1 : Nat) else 0) = 1 := if_pos heq01
    have hne0b : (if lcl 0 = w64 (string_to_name "eosio") then (0 : Nat) else 1) = 1 :=
      if_neg hne0
    have hNA : w64 EOSIO_ERROR_NO_ACTION = EOSIO_ERROR_NO_ACTION := by decide
    have hz : w32 0 = 0 := by decide
    refine ⟨⟨[], lcl, glb, mm,
      evs ++ [Event.call cIdx [lcl 0], Event.call aIdx [0, EOSIO_ERROR_NO_ACTION]]⟩, ?_, by simp⟩
    have hmism2 : ∀ a ∈ env.objs.flatMap (fun o => o.actions),
        w64 (string_to_name (nameOf a))
          ≠ (⟨[], lcl, glb, mm, evs ++ [Event.call cIdx [lcl 0]]⟩ : St).locals 2 :=
      fun a haa => hmism a haa
    trans (exec henv (r.1 ++ (if r.2 > 0 then [Instr.elsev] else []) ++
        ([Instr.getLocal 0, .i64const (string_to_name "eosio"), .i64ne, .ifv,
          .i32const 0, .i64const EOSIO_ERROR_NO_ACTION, .call aIdx, .endv] ++
         List.replicate r.2 Instr.endv ++ [Instr.elsev] ++
         [Instr.i64const (string_to_name "eosio"), .getLocal 1, .i64eq, .ifv,
          .i64const (string_to_name "onerror"), .getLocal 2, .i64eq, .ifv,
          .i32const 0, .i64const EOSIO_ERROR_ONERROR, .call aIdx, .endv, .endv] ++
         [Instr.endv] ++ [Instr.endv]))
        .run ⟨[], lcl, glb, mm, evs ++ [Event.call cIdx [lcl 0]]⟩)
    · simp [exec, h1, h2, heq01b]
    trans (exec henv
        ([Instr.getLocal 0, .i64const (string_to_name "eosio"), .i64ne, .ifv,
          .i32const 0, .i64const EOSIO_ERROR_NO_ACTION, .call aIdx, .endv] ++
         List.replicate r.2 Instr.endv ++ [Instr.elsev] ++
         [Instr.i64const (string_to_name "eosio"), .getLocal 1, .i64eq, .ifv,
          .i64const (string_to_name "onerror"), .getLocal 2, .i64eq, .ifv,
          .i32const 0, .i64const EOSIO_ERROR_ONERROR, .call aIdx, .endv, .endv] ++
         [Instr.endv] ++ [Instr.endv])
        .run ⟨[], lcl, glb, mm, evs ++ [Event.call cIdx [lcl 0]]⟩)
    · exact actionChain_run_mismatch env henv (env.objs.flatMap (fun o => o.actions)) []
        r.1 r.2 hch _ _ hmism2
    · simp [exec, h3, h4, hne0b, hNA, hz, exec_run_replicate_endv]

/-- Witness: on the concrete link `envC6`, dispatching an unknown action with
receiver = code reaches `eosio_assert_code(false, EOSIO_ERROR_NO_ACTION)`. -/
theorem claim_C6_unknown_action_assert_witness :
    (dedupFirst (envC6.objs.flatMap (fun o => o.actions))).Nodup ∧
    ∃ body, createDispatchFunction envC6 = Except.ok body ∧
      ∃ st2, exec henvC6 body.code .run stC6 = .done none st2 ∧
        Event.call 6 [0, EOSIO_ERROR_NO_ACTION] ∈ st2.events := by
  obtain ⟨body, hok⟩ : ∃ b, createDispatchFunction envC6 = Except.ok b := ⟨_, rfl⟩
  have h := claim_C6_unknown_action_assert envC6 5 6 rfl rfl rfl rfl rfl rfl rfl rfl
    (by decide)
  exact ⟨h.2.1, body, hok,
    h.2.2.2.2.2 body hok henvC6 stC6 rfl rfl rfl rfl rfl rfl (by decide) (by decide)⟩

/-- Double 64-bit truncation collapses. -/
theorem w64_w64 (n : Nat) : w64 (w64 n) = w64 n := by
  simp [w64, Nat.mod_mod_of_dvd n (dvd_refl (2 ^ 64))]

/-- Shape of a successfully emitted sync-call test block. -/
theorem callBlk_inv (env : LinkEnv) (hashId : String → Nat) (c : String)
    (ne : Bool) (gd gh : Nat) (blk : List Instr)
    (hgd : env.findF "__eos_get_sync_call_data_" = some gd)
    (hgh : env.findF "__eos_get_sync_call_data_header_" = some gh)
    (h : callBlk env hashId c ne = .ok blk) :
    ∃ tgt, env.findF (fnOf c) = some tgt ∧ tgt < env.nsyms ∧
      blk = (if ne then [Instr.elsev] else []) ++
        callBlkBody gd gh tgt (hashId (nameOf c)) := by
  unfold callBlk at h
  rw [hgd, hgh] at h
  cases ht : env.findF (fnOf c) with
  | none => rw [ht] at h; exact absurd h (by simp)
  | some tgt =>
    rw [ht] at h
    dsimp only at h
    by_cases hlt : tgt < env.nsyms
    · rw [if_pos hlt] at h
      simp only [Except.ok.injEq] at h
      exact ⟨tgt, rfl, hlt, by rw [← h]; simp [callBlkBody]⟩
    · rw [if_neg hlt] at h
      exact absurd h (by simp)

/-- A sync-call test block run on a header whose version word is non-zero:
the block returns `SYNC_CALL_UNSUPPORTED_HEADER_VERSION` immediately. -/
theorem callBlkBody_run_version (henv : HostEnv) (gd gh tgt hcode : Nat)
    (h1 : henv.arity gd = 1) (h2 : henv.hasRet gd = true)
    (h3 : henv.arity gh = 1) (h4 : henv.hasRet gh = true)
    (K : List Instr) (st : St) (hstk : st.stack = [])
    (hv : w32 (st.mem (w64 (henv.ret gh [w64 (henv.ret gd [st.locals 2])]))) ≠ 0) :
    exec henv (callBlkBody gd gh tgt hcode ++ K) .run st
      = .done (some (toU64 SYNC_CALL_UNSUPPORTED_HEADER_VERSION))
          { blkUpd henv gd gh st with
            stack := [toU64 SYNC_CALL_UNSUPPORTED_HEADER_VERSION] } := by
  obtain ⟨stk, lcl, glb, mm, evs⟩ := st
  simp only at hstk hv
  subst hstk
  have hW : w64 (toU64 SYNC_CALL_UNSUPPORTED_HEADER_VERSION)
      = toU64 SYNC_CALL_UNSUPPORTED_HEADER_VERSION := by decide
  simp [callBlkBody, blkUpd, exec, h1, h2, h3, h4, hv, hW, w64_w64]

/-- A sync-call test block on a version-zero header whose name test
mismatches: execution leaves the block in skip-to-`ELSE` mode with locals
3 and 4 set and the two helper calls recorded. -/
theorem callBlkBody_run_mismatch (henv : HostEnv) (gd gh tgt hcode : Nat)
    (h1 : henv.arity gd = 1) (h2 : henv.hasRet gd = true)
    (h3 : henv.arity gh = 1) (h4 : henv.hasRet gh = true)
    (K : List Instr) (st : St) (hstk : st.stack = [])
    (hv : w32 (st.mem (w64 (henv.ret gh [w64 (henv.ret gd [st.locals 2])]))) = 0)
    (hmm : w64 (st.mem (w32 (w64 (henv.ret gh [w64 (henv.ret gd [st.locals 2])]) + 8)))
      ≠ w64 hcode) :
    exec henv (callBlkBody gd gh tgt hcode ++ K) .run st
      = exec henv K (.skipElse 0) (blkUpd henv gd gh st) := by
  obtain ⟨stk, lcl, glb, mm, evs⟩ := st
  simp only at hstk hv hmm
  subst hstk
  have h8 : w32 8 = 8 := by decide
  simp [callBlkBody, blkUpd, exec, h1, h2, h3, h4, hv, hmm, h8, w64_w64]

/-- A sync-call test block on a version-zero header whose name test
matches: the target is invoked with `(sender, receiver, data_size, data)`
and execution continues in run mode after the block. -/
theorem callBlkBody_run_match (henv : HostEnv) (gd gh tgt hcode : Nat)
    (h1 : henv.arity gd = 1) (h2 : henv.hasRet gd = true)
    (h3 : henv.arity gh = 1) (h4 : henv.hasRet gh = true)
    (h5 : henv.arity tgt = 4) (h6 : henv.hasRet tgt = false)
    (K : List Instr) (st : St) (hstk : st.stack = [])
    (hv : w32 (st.mem (w64 (henv.ret gh [w64 (henv.ret gd [st.locals 2])]))) = 0)
    (hmt : w64 (st.mem (w32 (w64 (henv.ret gh [w64 (henv.ret gd [st.locals 2])]) + 8)))
      = w64 hcode) :
    exec henv (callBlkBody gd gh tgt hcode ++ K) .run st
      = exec henv K .run
          { st with
            stack := [],
            locals := fun k =>
              if k = 4 then w64 (henv.ret gh [w64 (henv.ret gd [st.locals 2])])
              else if k = 3 then w64 (henv.ret gd [st.locals 2]) else st.locals k,
            events := st.events ++
              [Event.call gd [st.locals 2],
               Event.call gh [w64 (henv.ret gd [st.locals 2])],
               Event.call tgt [st.locals 0, st.locals 1, st.locals 2,
                 w64 (henv.ret gd [st.locals 2])]] } := by
  obtain ⟨stk, lcl, glb, mm, evs⟩ := st
  simp only at hstk hv hmt
  subst hstk
  have h8 : w32 8 = 8 := by decide
  simp [callBlkBody, exec, h1, h2, h3, h4, h5, h6, hv, hmt, h8, w64_w64]

/-- Skipping over a sync-call test block towards a matching `END` passes
one net `IF`: the skip depth rises by one. -/
theorem callBlkBody_skipEnd (henv : HostEnv) (gd gh tgt hcode : Nat)
    (K : List Instr) (st : St) (d : Nat) :
    exec henv (callBlkBody gd gh tgt hcode ++ K) (.skipEnd d) st
      = exec henv K (.skipEnd (d + 1)) st := by
  simp [callBlkBody, exec]

/-- Replicated `END`s consumed from skip mode: when the depth is below the
count, the matching `END` is found and execution resumes running. -/
theorem exec_skipEnd_replicate (henv : HostEnv) :
    ∀ (n d : Nat) (K : List Instr) (st : St), d < n →
    exec henv (List.replicate n Instr.endv ++ K) (.skipEnd d) st
      = exec henv K .run st := by
  intro n
  induction n with
  | zero => intro d K st hd; exact absurd hd (Nat.not_lt_zero d)
  | succ m ih =>
    intro d K st hd
    rw [List.replicate_succ]
    cases d with
    | zero =>
      show exec henv (Instr.endv :: (List.replicate m Instr.endv ++ K)) (.skipEnd 0) st
        = exec henv K .run st
      rw [show exec henv (Instr.endv :: (List.replicate m Instr.endv ++ K)) (.skipEnd 0) st
          = exec henv (List.replicate m Instr.endv ++ K) .run st from rfl]
      exact exec_run_replicate_endv henv m K st
    | succ e =>
      show exec henv (Instr.endv :: (List.replicate m Instr.endv ++ K)) (.skipEnd (e + 1)) st
        = exec henv K .run st
      rw [show exec henv (Instr.endv :: (List.replicate m Instr.endv ++ K)) (.skipEnd (e + 1)) st
          = exec henv (List.replicate m Instr.endv ++ K) (.skipEnd e) st from rfl]
      exact ih e K st (by omega)

/-- Skipping a whole sync-call chain towards a matching `END` raises the
skip depth by the number of emitted test blocks. -/
theorem callChain_skipEnd (env : LinkEnv) (hashId : String → Nat) (henv : HostEnv)
    (gd gh : Nat)
    (hgd : env.findF "__eos_get_sync_call_data_" = some gd)
    (hgh : env.findF "__eos_get_sync_call_data_header_" = some gh) :
    ∀ (l seen : List String) (chain : List Instr) (cnt : Nat),
    callChainGo env hashId seen true l = .ok (chain, cnt) →
    ∀ (d : Nat) (K : List Instr) (st : St),
    exec henv (chain ++ K) (.skipEnd d) st = exec henv K (.skipEnd (d + cnt)) st := by
  intro l
  induction l with
  | nil =>
    intro seen chain cnt h d K st
    simp only [callChainGo, Except.ok.injEq, Prod.mk.injEq] at h
    rw [← h.1, ← h.2]
    rfl
  | cons a as ih =>
    intro seen chain cnt h d K st
    unfold callChainGo at h
    by_cases hm : a ∈ seen
    · rw [if_pos hm] at h
      exact ih seen chain cnt h d K st
    · rw [if_neg hm] at h
      cases hblk : callBlk env hashId a true with
      | error e => rw [hblk] at h; exact absurd h (by simp)
      | ok blk =>
        rw [hblk] at h
        cases hrest : callChainGo env hashId (a :: seen) true as with
        | error e => rw [hrest] at h; exact absurd h (by simp)
        | ok r =>
          rw [hrest] at h
          simp only [Except.ok.injEq, Prod.mk.injEq] at h
          obtain ⟨tgt, htgt, hlt, hb⟩ := callBlk_inv env hashId a true gd gh blk hgd hgh hblk
          rw [← h.1, ← h.2, hb]
          show exec henv ((Instr.elsev :: callBlkBody gd gh tgt (hashId (nameOf a)) ++ r.1) ++ K)
              (.skipEnd d) st = _
          rw [show ((Instr.elsev :: callBlkBody gd gh tgt (hashId (nameOf a)) ++ r.1) ++ K)
              = Instr.elsev :: (callBlkBody gd gh tgt (hashId (nameOf a)) ++ (r.1 ++ K)) by simp]
          rw [show exec henv
              (Instr.elsev :: (callBlkBody gd gh tgt (hashId (nameOf a)) ++ (r.1 ++ K)))
              (.skipEnd d) st
              = exec henv (callBlkBody gd gh tgt (hashId (nameOf a)) ++ (r.1 ++ K))
                  (.skipEnd d) st from rfl]
          rw [callBlkBody_skipEnd henv gd gh tgt _ (r.1 ++ K) st d]
          rw [ih (a :: seen) r.1 r.2 hrest (d + 1) K st]
          have he : d + 1 + r.2 = d + (r.2 + 1) := by omega
          rw [he]

/-- Entering a sync-call chain in run mode right after a dispatched call:
the leading `ELSE` of the next test (or of the chain epilogue) switches to
skip mode, and the whole chain is passed with depth equal to its block
count. -/
theorem callChain_run_to_skipEnd (env : LinkEnv) (hashId : String → Nat) (henv : HostEnv)
    (gd gh : Nat)
    (hgd : env.findF "__eos_get_sync_call_data_" = some gd)
    (hgh : env.findF "__eos_get_sync_call_data_header_" = some gh) :
    ∀ (l seen : List String) (chain : List Instr) (cnt : Nat),
    callChainGo env hashId seen true l = .ok (chain, cnt) →
    ∀ (K : List Instr) (st : St),
    exec henv (chain ++ Instr.elsev :: K) .run st = exec henv K (.skipEnd cnt) st := by
  intro l
  induction l with
  | nil =>
    intro seen chain cnt h K st
    simp only [callChainGo, Except.ok.injEq, Prod.mk.injEq] at h
    rw [← h.1, ← h.2]
    rfl
  | cons a as ih =>
    intro seen chain cnt h K st
    unfold callChainGo at h
    by_cases hm : a ∈ seen
    · rw [if_pos hm] at h
      exact ih seen chain cnt h K st
    · rw [if_neg hm] at h
      cases hblk : callBlk env hashId a true with
      | error e => rw [hblk] at h; exact absurd h (by simp)
      | ok blk =>
        rw [hblk] at h
        cases hrest : callChainGo env hashId (a :: seen) true as with
        | error e => rw [hrest] at h; exact absurd h (by simp)
        | ok r =>
          rw [hrest] at h
          simp only [Except.ok.injEq, Prod.mk.injEq] at h
          obtain ⟨tgt, htgt, hlt, hb⟩ := callBlk_inv env hashId a true gd gh blk hgd hgh hblk
          rw [← h.1, ← h.2, hb]
          rw [show (((if true then [Instr.elsev] else []) ++
                callBlkBody gd gh tgt (hashId (nameOf a))) ++ r.1) ++ Instr.elsev :: K
              = Instr.elsev :: (callBlkBody gd gh tgt (hashId (nameOf a)) ++
                  (r.1 ++ Instr.elsev :: K)) by simp]
          rw [show exec henv
              (Instr.elsev :: (callBlkBody gd gh tgt (hashId (nameOf a)) ++
                (r.1 ++ Instr.elsev :: K))) .run st
              = exec henv (callBlkBody gd gh tgt (hashId (nameOf a)) ++
                  (r.1 ++ Instr.elsev :: K)) (.skipEnd 0) st from rfl]
          rw [callBlkBody_skipEnd henv gd gh tgt _ (r.1 ++ Instr.elsev :: K) st 0]
          rw [callChain_skipEnd env hashId henv gd gh hgd hgh as (a :: seen) r.1 r.2 hrest
            (0 + 1) (Instr.elsev :: K) st]
          rw [show exec henv (Instr.elsev :: K) (.skipEnd (0 + 1 + r.2)) st
              = exec henv K (.skipEnd (0 + 1 + r.2)) st from rfl]
          have he : 0 + 1 + r.2 = r.2 + 1 := by omega
          rw [he]

/-- `blkUpd` leaves linear memory unchanged. -/
theorem blkUpd_mem (henv : HostEnv) (gd gh : Nat) (st : St) :
    (blkUpd henv gd gh st).mem = st.mem := rfl

/-- `blkUpd` clears the operand stack. -/
theorem blkUpd_stack (henv : HostEnv) (gd gh : Nat) (st : St) :
    (blkUpd henv gd gh st).stack = [] := rfl

/-- `blkUpd` only writes locals 3 and 4. -/
theorem blkUpd_locals (henv : HostEnv) (gd gh : Nat) (st : St) (k : Nat)
    (hk3 : k ≠ 3) (hk4 : k ≠ 4) :
    (blkUpd henv gd gh st).locals k = st.locals k := by
  simp [blkUpd, hk3, hk4]

/-- Falling through a sync-call chain whose name tests all mismatch on a
version-zero header, entered at the `ELSE` of the previous test: execution
resumes at the continuation with locals 0–2 and memory untouched. -/
theorem callChain_skipElse_mismatch (env : LinkEnv) (hashId : String → Nat)
    (henv : HostEnv) (gd gh : Nat)
    (hgd : env.findF "__eos_get_sync_call_data_" = some gd)
    (hgh : env.findF "__eos_get_sync_call_data_header_" = some gh)
    (h1 : henv.arity gd = 1) (h2 : henv.hasRet gd = true)
    (h3 : henv.arity gh = 1) (h4 : henv.hasRet gh = true) :
    ∀ (l seen : List String) (chain : List Instr) (cnt : Nat),
    callChainGo env hashId seen true l = .ok (chain, cnt) →
    ∀ (K : List Instr) (st : St),
    st.stack = [] →
    w32 (st.mem (w64 (henv.ret gh [w64 (henv.ret gd [st.locals 2])]))) = 0 →
    (∀ c ∈ l, w64 (st.mem (w32 (w64 (henv.ret gh [w64 (henv.ret gd [st.locals 2])]) + 8)))
      ≠ w64 (hashId (nameOf c))) →
    ∃ st2, exec henv (chain ++ Instr.elsev :: K) (.skipElse 0) st = exec henv K .run st2 ∧
      st2.stack = [] ∧ st2.locals 0 = st.locals 0 ∧ st2.locals 1 = st.locals 1 ∧
      st2.locals 2 = st.locals 2 ∧ st2.mem = st.mem := by
  intro l
  induction l with
  | nil =>
    intro seen chain cnt h K st hstk hv hmism
    simp only [callChainGo, Except.ok.injEq, Prod.mk.injEq] at h
    rw [← h.1]
    exact ⟨st, rfl, hstk, rfl, rfl, rfl, rfl⟩
  | cons a as ih =>
    intro seen chain cnt h K st hstk hv hmism
    unfold callChainGo at h
    by_cases hm : a ∈ seen
    · rw [if_pos hm] at h
      exact ih seen chain cnt h K st hstk hv
        (fun x hx => hmism x (List.mem_cons_of_mem a hx))
    · rw [if_neg hm] at h
      cases hblk : callBlk env hashId a true with
      | error e => rw [hblk] at h; exact absurd h (by simp)
      | ok blk =>
        rw [hblk] at h
        cases hrest : callChainGo env hashId (a :: seen) true as with
        | error e => rw [hrest] at h; exact absurd h (by simp)
        | ok r =>
          rw [hrest] at h
          simp only [Except.ok.injEq, Prod.mk.injEq] at h
          obtain ⟨tgt, htgt, hlt, hb⟩ := callBlk_inv env hashId a true gd gh blk hgd hgh hblk
          have hv2 : w32 ((blkUpd henv gd gh st).mem (w64 (henv.ret gh
              [w64 (henv.ret gd [(blkUpd henv gd gh st).locals 2])]))) = 0 := by
            rw [blkUpd_mem, blkUpd_locals henv gd gh st 2 (by decide) (by decide)]
            exact hv
          have hmm2 : ∀ c ∈ as, w64 ((blkUpd henv gd gh st).mem (w32 (w64 (henv.ret gh
              [w64 (henv.ret gd [(blkUpd henv gd gh st).locals 2])]) + 8)))
              ≠ w64 (hashId (nameOf c)) := by
            intro c hc
            rw [blkUpd_mem, blkUpd_locals henv gd gh st 2 (by decide) (by decide)]
            exact hmism c (List.mem_cons_of_mem a hc)
          obtain ⟨st2, heq, f1, f2, f3, f4, f5⟩ := ih (a :: seen) r.1 r.2 hrest K
            (blkUpd henv gd gh st) (blkUpd_stack henv gd gh st) hv2 hmm2
          refine ⟨st2, ?_, f1,
            by rw [f2, blkUpd_locals henv gd gh st 0 (by decide) (by decide)],
            by rw [f3, blkUpd_locals henv gd gh st 1 (by decide) (by decide)],
            by rw [f4, blkUpd_locals henv gd gh st 2 (by decide) (by decide)],
            by rw [f5, blkUpd_mem]⟩
          rw [← h.1, hb]
          rw [show (((if true then [Instr.elsev] else []) ++
                callBlkBody gd gh tgt (hashId (nameOf a))) ++ r.1) ++ Instr.elsev :: K
              = Instr.elsev :: (callBlkBody gd gh tgt (hashId (nameOf a)) ++
                  (r.1 ++ Instr.elsev :: K)) by simp]
          rw [show exec henv
              (Instr.elsev :: (callBlkBody gd gh tgt (hashId (nameOf a)) ++
                (r.1 ++ Instr.elsev :: K))) (.skipElse 0) st
              = exec henv (callBlkBody gd gh tgt (hashId (nameOf a)) ++
                  (r.1 ++ Instr.elsev :: K)) .run st from rfl]
          rw [callBlkBody_run_mismatch henv gd gh tgt (hashId (nameOf a)) h1 h2 h3 h4
            (r.1 ++ Instr.elsev :: K) st hstk hv (hmism a (List.mem_cons_self _ _))]
          exact heq

/-- Running an all-mismatching sync-call chain from its start on a
version-zero header: execution falls through to the continuation after the
chain epilogue `ELSE`. -/
theorem callChain_run_mismatch (env : LinkEnv) (hashId : String → Nat)
    (henv : HostEnv) (gd gh : Nat)
    (hgd : env.findF "__eos_get_sync_call_data_" = some gd)
    (hgh : env.findF "__eos_get_sync_call_data_header_" = some gh)
    (h1 : henv.arity gd = 1) (h2 : henv.hasRet gd = true)
    (h3 : henv.arity gh = 1) (h4 : henv.hasRet gh = true) :
    ∀ (l : List String) (chain : List Instr) (cnt : Nat),
    callChainGo env hashId [] false l = .ok (chain, cnt) → cnt ≠ 0 →
    ∀ (K : List Instr) (st : St),
    st.stack = [] →
    w32 (st.mem (w64 (henv.ret gh [w64 (henv.ret gd [st.locals 2])]))) = 0 →
    (∀ c ∈ l, w64 (st.mem (w32 (w64 (henv.ret gh [w64 (henv.ret gd [st.locals 2])]) + 8)))
      ≠ w64 (hashId (nameOf c))) →
    ∃ st2, exec henv (chain ++ Instr.elsev :: K) .run st = exec henv K .run st2 ∧
      st2.stack = [] ∧ st2.locals 0 = st.locals 0 ∧ st2.locals 1 = st.locals 1 ∧
      st2.locals 2 = st.locals 2 ∧ st2.mem = st.mem := by
  intro l
  cases l with
  | nil =>
    intro chain cnt h hcnt K st hstk hv hmism
    simp only [callChainGo, Except.ok.injEq, Prod.mk.injEq] at h
    exact absurd h.2.symm hcnt
  | cons a as =>
    intro chain cnt h hcnt K st hstk hv hmism
    unfold callChainGo at h
    rw [if_neg (List.not_mem_nil a)] at h
    cases hblk : callBlk env hashId a false with
    | error e => rw [hblk] at h; exact absurd h (by simp)
    | ok blk =>
      rw [hblk] at h
      cases hrest : callChainGo env hashId [a] true as with
      | error e => rw [hrest] at h; exact absurd h (by simp)
      | ok r =>
        rw [hrest] at h
        simp only [Except.ok.injEq, Prod.mk.injEq] at h
        obtain ⟨tgt, htgt, hlt, hb⟩ := callBlk_inv env hashId a false gd gh blk hgd hgh hblk
        have hv2 : w32 ((blkUpd henv gd gh st).mem (w64 (henv.ret gh
            [w64 (henv.ret gd [(blkUpd henv gd gh st).locals 2])]))) = 0 := by
          rw [blkUpd_mem, blkUpd_locals henv gd gh st 2 (by decide) (by decide)]
          exact hv
        have hmm2 : ∀ c ∈ as, w64 ((blkUpd henv gd gh st).mem (w32 (w64 (henv.ret gh
            [w64 (henv.ret gd [(blkUpd henv gd gh st).locals 2])]) + 8)))
            ≠ w64 (hashId (nameOf c)) := by
          intro c hc
          rw [blkUpd_mem, blkUpd_locals henv gd gh st 2 (by decide) (by decide)]
          exact hmism c (List.mem_cons_of_mem a hc)
        obtain ⟨st2, heq, f1, f2, f3, f4, f5⟩ :=
          callChain_skipElse_mismatch env hashId henv gd gh hgd hgh h1 h2 h3 h4 as [a]
            r.1 r.2 hrest K (blkUpd henv gd gh st) (blkUpd_stack henv gd gh st) hv2 hmm2
        refine ⟨st2, ?_, f1,
          by rw [f2, blkUpd_locals henv gd gh st 0 (by decide) (by decide)],
          by rw [f3, blkUpd_locals henv gd gh st 1 (by decide) (by decide)],
          by rw [f4, blkUpd_locals henv gd gh st 2 (by decide) (by decide)],
          by rw [f5, blkUpd_mem]⟩
        rw [← h.1, hb]
        rw [show (((if false then [Instr.elsev] else []) ++
              callBlkBody gd gh tgt (hashId (nameOf a))) ++ r.1) ++ Instr.elsev :: K
            = callBlkBody gd gh tgt (hashId (nameOf a)) ++ (r.1 ++ Instr.elsev :: K) by simp]
        rw [callBlkBody_run_mismatch henv gd gh tgt (hashId (nameOf a)) h1 h2 h3 h4
          (r.1 ++ Instr.elsev :: K) st hstk hv (hmism a (List.mem_cons_self _ _))]
        exact heq

/-- Dispatching through a sync-call chain entered at the previous test's
`ELSE`: earlier tests mismatch, the matching block calls its target, and
the remaining blocks plus the chain epilogue are skipped to the matching
`END`s, resuming after the replicated `END`s with the target call
recorded. -/
theorem callChain_skipElse_match (env : LinkEnv) (hashId : String → Nat)
    (henv : HostEnv) (gd gh : Nat) (c : String) (tgt : Nat)
    (hgd : env.findF "__eos_get_sync_call_data_" = some gd)
    (hgh : env.findF "__eos_get_sync_call_data_header_" = some gh)
    (h1 : henv.arity gd = 1) (h2 : henv.hasRet gd = true)
    (h3 : henv.arity gh = 1) (h4 : henv.hasRet gh = true)
    (htc : env.findF (fnOf c) = some tgt)
    (h5 : henv.arity tgt = 4) (h6 : henv.hasRet tgt = false) :
    ∀ (l seen : List String) (chain : List Instr) (cnt : Nat),
    callChainGo env hashId seen true l = .ok (chain, cnt) →
    ∀ (M : Nat) (K : List Instr) (st : St),
    cnt ≤ M → c ∈ l → c ∉ seen →
    st.stack = [] →
    w32 (st.mem (w64 (henv.ret gh [w64 (henv.ret gd [st.locals 2])]))) = 0 →
    (∀ x ∈ l, x ≠ c →
      w64 (st.mem (w32 (w64 (henv.ret gh [w64 (henv.ret gd [st.locals 2])]) + 8)))
        ≠ w64 (hashId (nameOf x))) →
    w64 (st.mem (w32 (w64 (henv.ret gh [w64 (henv.ret gd [st.locals 2])]) + 8)))
      = w64 (hashId (nameOf c)) →
    ∃ st2, exec henv (chain ++ Instr.elsev ::
        Instr.i64const (toU64 SYNC_CALL_UNKNOWN_FUNCTION) :: Instr.retv ::
        (List.replicate M Instr.endv ++ K)) (.skipElse 0) st = exec henv K .run st2 ∧
      Event.call tgt [st.locals 0, st.locals 1, st.locals 2, w64 (henv.ret gd [st.locals 2])]
        ∈ st2.events := by
  intro l
  induction l with
  | nil =>
    intro seen chain cnt h M K st hM hc hcs hstk hv hmism hmt
    exact absurd hc (List.not_mem_nil c)
  | cons a as ih =>
    intro seen chain cnt h M K st hM hc hcs hstk hv hmism hmt
    unfold callChainGo at h
    by_cases hm : a ∈ seen
    · rw [if_pos hm] at h
      have hac : c ≠ a := fun he => hcs (he ▸ hm)
      exact ih seen chain cnt h M K st hM
        (List.mem_of_ne_of_mem hac hc) hcs hstk hv
        (fun x hx => hmism x (List.mem_cons_of_mem a hx)) hmt
    · rw [if_neg hm] at h
      cases hblk : callBlk env hashId a true with
      | error e => rw [hblk] at h; exact absurd h (by simp)
      | ok blk =>
        rw [hblk] at h
        cases hrest : callChainGo env hashId (a :: seen) true as with
        | error e => rw [hrest] at h; exact absurd h (by simp)
        | ok r =>
          rw [hrest] at h
          simp only [Except.ok.injEq, Prod.mk.injEq] at h
          obtain ⟨tg2, htg2, hlt2, hb⟩ := callBlk_inv env hashId a true gd gh blk hgd hgh hblk
          by_cases hac : a = c
          · subst hac
            have htgeq : tg2 = tgt := by
              rw [htc] at htg2; exact (Option.some.injEq _ _).mp htg2.symm
            subst htgeq
            refine ⟨{ st with
                stack := [],
                locals := fun k =>
                  if k = 4 then w64 (henv.ret gh [w64 (henv.ret gd [st.locals 2])])
                  else if k = 3 then w64 (henv.ret gd [st.locals 2]) else st.locals k,
                events := st.events ++
                  [Event.call gd [st.locals 2],
                   Event.call gh [w64 (henv.ret gd [st.locals 2])],
                   Event.call tg2 [st.locals 0, st.locals 1, st.locals 2,
                     w64 (henv.ret gd [st.locals 2])]] }, ?_, by simp⟩
            rw [← h.1, hb]
            rw [show (((if true then [Instr.elsev] else []) ++
                  callBlkBody gd gh tg2 (hashId (nameOf a))) ++ r.1) ++ Instr.elsev ::
                  Instr.i64const (toU64 SYNC_CALL_UNKNOWN_FUNCTION) :: Instr.retv ::
                  (List.replicate M Instr.endv ++ K)
                = Instr.elsev :: (callBlkBody gd gh tg2 (hashId (nameOf a)) ++
                    (r.1 ++ Instr.elsev ::
                      Instr.i64const (toU64 SYNC_CALL_UNKNOWN_FUNCTION) :: Instr.retv ::
                      (List.replicate M Instr.endv ++ K))) by simp]
            rw [show exec henv
                (Instr.elsev :: (callBlkBody gd gh tg2 (hashId (nameOf a)) ++
                  (r.1 ++ Instr.elsev ::
                    Instr.i64const (toU64 SYNC_CALL_UNKNOWN_FUNCTION) :: Instr.retv ::
                    (List.replicate M Instr.endv ++ K)))) (.skipElse 0) st
                = exec henv (callBlkBody gd gh tg2 (hashId (nameOf a)) ++
                    (r.1 ++ Instr.elsev ::
                      Instr.i64const (toU64 SYNC_CALL_UNKNOWN_FUNCTION) :: Instr.retv ::
                      (List.replicate M Instr.endv ++ K))) .run st from rfl]
            rw [callBlkBody_run_match henv gd gh tg2 (hashId (nameOf a)) h1 h2 h3 h4 h5 h6
              (r.1 ++ Instr.elsev ::
                Instr.i64const (toU64 SYNC_CALL_UNKNOWN_FUNCTION) :: Instr.retv ::
                (List.replicate M Instr.endv ++ K)) st hstk hv hmt]
            rw [callChain_run_to_skipEnd env hashId henv gd gh hgd hgh as (a :: seen)
              r.1 r.2 hrest
              (Instr.i64const (toU64 SYNC_CALL_UNKNOWN_FUNCTION) :: Instr.retv ::
                (List.replicate M Instr.endv ++ K)) _]
            rw [show exec henv
                (Instr.i64const (toU64 SYNC_CALL_UNKNOWN_FUNCTION) :: Instr.retv ::
                  (List.replicate M Instr.endv ++ K)) (.skipEnd r.2) _
                = exec henv (List.replicate M Instr.endv ++ K) (.skipEnd r.2) _ from rfl]
            exact exec_skipEnd_replicate henv M r.2 K _ (by omega)
          · have hmma : w64 (st.mem (w32 (w64 (henv.ret gh
                [w64 (henv.ret gd [st.locals 2])]) + 8))) ≠ w64 (hashId (nameOf a)) :=
              hmism a (List.mem_cons_self _ _) hac
            have hv2 : w32 ((blkUpd henv gd gh st).mem (w64 (henv.ret gh
                [w64 (henv.ret gd [(blkUpd henv gd gh st).locals 2])]))) = 0 := by
              rw [blkUpd_mem, blkUpd_locals henv gd gh st 2 (by decide) (by decide)]
              exact hv
            have hmm2 : ∀ x ∈ as, x ≠ c → w64 ((blkUpd henv gd gh st).mem (w32 (w64
                (henv.ret gh [w64 (henv.ret gd [(blkUpd henv gd gh st).locals 2])]) + 8)))
                ≠ w64 (hashId (nameOf x)) := by
              intro x hx hxc
              rw [blkUpd_mem, blkUpd_locals henv gd gh st 2 (by decide) (by decide)]
              exact hmism x (List.mem_cons_of_mem a hx) hxc
            have hmt2 : w64 ((blkUpd henv gd gh st).mem (w32 (w64 (henv.ret gh
                [w64 (henv.ret gd [(blkUpd henv gd gh st).locals 2])]) + 8)))
                = w64 (hashId (nameOf c)) := by
              rw [blkUpd_mem, blkUpd_locals henv gd gh st 2 (by decide) (by decide)]
              exact hmt
            obtain ⟨st2, heq, hev⟩ := ih (a :: seen) r.1 r.2 hrest M K
              (blkUpd henv gd gh st) (by omega)
              (List.mem_of_ne_of_mem (fun he => hac he.symm) hc)
              (fun hmem => by
                rcases List.mem_cons.mp hmem with he | hs
                · exact hac he.symm
                · exact hcs hs)
              (blkUpd_stack henv gd gh st) hv2 hmm2 hmt2
            refine ⟨st2, ?_, ?_⟩
            · rw [← h.1, hb]
              rw [show (((if true then [Instr.elsev] else []) ++
                    callBlkBody gd gh tg2 (hashId (nameOf a))) ++ r.1) ++ Instr.elsev ::
                    Instr.i64const (toU64 SYNC_CALL_UNKNOWN_FUNCTION) :: Instr.retv ::
                    (List.replicate M Instr.endv ++ K)
                  = Instr.elsev :: (callBlkBody gd gh tg2 (hashId (nameOf a)) ++
                      (r.1 ++ Instr.elsev ::
                        Instr.i64const (toU64 SYNC_CALL_UNKNOWN_FUNCTION) :: Instr.retv ::
                        (List.replicate M Instr.endv ++ K))) by simp]
              rw [show exec henv
                  (Instr.elsev :: (callBlkBody gd gh tg2 (hashId (nameOf a)) ++
                    (r.1 ++ Instr.elsev ::
                      Instr.i64const (toU64 SYNC_CALL_UNKNOWN_FUNCTION) :: Instr.retv ::
                      (List.replicate M Instr.endv ++ K)))) (.skipElse 0) st
                  = exec henv (callBlkBody gd gh tg2 (hashId (nameOf a)) ++
                      (r.1 ++ Instr.elsev ::
                        Instr.i64const (toU64 SYNC_CALL_UNKNOWN_FUNCTION) :: Instr.retv ::
                        (List.replicate M Instr.endv ++ K))) .run st from rfl]
              rw [callBlkBody_run_mismatch henv gd gh tg2 (hashId (nameOf a)) h1 h2 h3 h4
                (r.1 ++ Instr.elsev ::
                  Instr.i64const (toU64 SYNC_CALL_UNKNOWN_FUNCTION) :: Instr.retv ::
                  (List.replicate M Instr.endv ++ K)) st hstk hv hmma]
              exact heq
            · rw [blkUpd_locals henv gd gh st 0 (by decide) (by decide),
                blkUpd_locals henv gd gh st 1 (by decide) (by decide),
                blkUpd_locals henv gd gh st 2 (by decide) (by decide)] at hev
              exact hev

/-- Running a sync-call chain from its start when exactly one registered
name matches the header's function name: the matching target is called and
execution resumes after the replicated `END`s. -/
theorem callChain_run_match (env : LinkEnv) (hashId : String → Nat)
    (henv : HostEnv) (gd gh : Nat) (c : String) (tgt : Nat)
    (hgd : env.findF "__eos_get_sync_call_data_" = some gd)
    (hgh : env.findF "__eos_get_sync_call_data_header_" = some gh)
    (h1 : henv.arity gd = 1) (h2 : henv.hasRet gd = true)
    (h3 : henv.arity gh = 1) (h4 : henv.hasRet gh = true)
    (htc : env.findF (fnOf c) = some tgt)
    (h5 : henv.arity tgt = 4) (h6 : henv.hasRet tgt = false) :
    ∀ (l : List String) (chain : List Instr) (cnt : Nat),
    callChainGo env hashId [] false l = .ok (chain, cnt) →
    ∀ (M : Nat) (K : List Instr) (st : St),
    cnt ≤ M → c ∈ l →
    st.stack = [] →
    w32 (st.mem (w64 (henv.ret gh [w64 (henv.ret gd [st.locals 2])]))) = 0 →
    (∀ x ∈ l, x ≠ c →
      w64 (st.mem (w32 (w64 (henv.ret gh [w64 (henv.ret gd [st.locals 2])]) + 8)))
        ≠ w64 (hashId (nameOf x))) →
    w64 (st.mem (w32 (w64 (henv.ret gh [w64 (henv.ret gd [st.locals 2])]) + 8)))
      = w64 (hashId (nameOf c)) →
    ∃ st2, exec henv (chain ++ Instr.elsev ::
        Instr.i64const (toU64 SYNC_CALL_UNKNOWN_FUNCTION) :: Instr.retv ::
        (List.replicate M Instr.endv ++ K)) .run st = exec henv K .run st2 ∧
      Event.call tgt [st.locals 0, st.locals 1, st.locals 2, w64 (henv.ret gd [st.locals 2])]
        ∈ st2.events := by
  intro l
  cases l with
  | nil =>
    intro chain cnt h M K st hM hc hstk hv hmism hmt
    exact absurd hc (List.not_mem_nil c)
  | cons a as =>
    intro chain cnt h M K st hM hc hstk hv hmism hmt
    unfold callChainGo at h
    rw [if_neg (List.not_mem_nil a)] at h
    cases hblk : callBlk env hashId a false with
    | error e => rw [hblk] at h; exact absurd h (by simp)
    | ok blk =>
      rw [hblk] at h
      cases hrest : callChainGo env hashId [a] true as with
      | error e => rw [hrest] at h; exact absurd h (by simp)
      | ok r =>
        rw [hrest] at h
        simp only [Except.ok.injEq, Prod.mk.injEq] at h
        obtain ⟨tg2, htg2, hlt2, hb⟩ := callBlk_inv env hashId a false gd gh blk hgd hgh hblk
        by_cases hac : a = c
        · subst hac
          have htgeq : tg2 = tgt := by
            rw [htc] at htg2; exact (Option.some.injEq _ _).mp htg2.symm
          subst htgeq
          refine ⟨{ st with
              stack := [],
              locals := fun k =>
                if k = 4 then w64 (henv.ret gh [w64 (henv.ret gd [st.locals 2])])
                else if k = 3 then w64 (henv.ret gd [st.locals 2]) else st.locals k,
              events := st.events ++
                [Event.call gd [st.locals 2],
                 Event.call gh [w64 (henv.ret gd [st.locals 2])],
                 Event.call tg2 [st.locals 0, st.locals 1, st.locals 2,
                   w64 (henv.ret gd [st.locals 2])]] }, ?_, by simp⟩
          rw [← h.1, hb]
          rw [show (((if false then [Instr.elsev] else []) ++
                callBlkBody gd gh tg2 (hashId (nameOf a))) ++ r.1) ++ Instr.elsev ::
                Instr.i64const (toU64 SYNC_CALL_UNKNOWN_FUNCTION) :: Instr.retv ::
                (List.replicate M Instr.endv ++ K)
              = callBlkBody gd gh tg2 (hashId (nameOf a)) ++
                  (r.1 ++ Instr.elsev ::
                    Instr.i64const (toU64 SYNC_CALL_UNKNOWN_FUNCTION) :: Instr.retv ::
                    (List.replicate M Instr.endv ++ K)) by simp]
          rw [callBlkBody_run_match henv gd gh tg2 (hashId (nameOf a)) h1 h2 h3 h4 h5 h6
            (r.1 ++ Instr.elsev ::
              Instr.i64const (toU64 SYNC_CALL_UNKNOWN_FUNCTION) :: Instr.retv ::
              (List.replicate M Instr.endv ++ K)) st hstk hv hmt]
          rw [callChain_run_to_skipEnd env hashId henv gd gh hgd hgh as [a]
            r.1 r.2 hrest
            (Instr.i64const (toU64 SYNC_CALL_UNKNOWN_FUNCTION) :: Instr.retv ::
              (List.replicate M Instr.endv ++ K)) _]
          rw [show exec henv
              (Instr.i64const (toU64 SYNC_CALL_UNKNOWN_FUNCTION) :: Instr.retv ::
                (List.replicate M Instr.endv ++ K)) (.skipEnd r.2) _
              = exec henv (List.replicate M Instr.endv ++ K) (.skipEnd r.2) _ from rfl]
          exact exec_skipEnd_replicate henv M r.2 K _ (by omega)
        · have hmma : w64 (st.mem (w32 (w64 (henv.ret gh
              [w64 (henv.ret gd [st.locals 2])]) + 8))) ≠ w64 (hashId (nameOf a)) :=
            hmism a (List.mem_cons_self _ _) hac
          have hv2 : w32 ((blkUpd henv gd gh st).mem (w64 (henv.ret gh
              [w64 (henv.ret gd [(blkUpd henv gd gh st).locals 2])]))) = 0 := by
            rw [blkUpd_mem, blkUpd_locals henv gd gh st 2 (by decide) (by decide)]
            exact hv
          have hmm2 : ∀ x ∈ as, x ≠ c → w64 ((blkUpd henv gd gh st).mem (w32 (w64
              (henv.ret gh [w64 (henv.ret gd [(blkUpd henv gd gh st).locals 2])]) + 8)))
              ≠ w64 (hashId (nameOf x)) := by
            intro x hx hxc
            rw [blkUpd_mem, blkUpd_locals henv gd gh st 2 (by decide) (by decide)]
            exact hmism x (List.mem_cons_of_mem a hx) hxc
          have hmt2 : w64 ((blkUpd henv gd gh st).mem (w32 (w64 (henv.ret gh
              [w64 (henv.ret gd [(blkUpd henv gd gh st).locals 2])]) + 8)))
              = w64 (hashId (nameOf c)) := by
            rw [blkUpd_mem, blkUpd_locals henv gd gh st 2 (by decide) (by decide)]
            exact hmt
          obtain ⟨st2, heq, hev⟩ := callChain_skipElse_match env hashId henv gd gh c tgt
            hgd hgh h1 h2 h3 h4 htc h5 h6 as [a] r.1 r.2 hrest M K
            (blkUpd henv gd gh st) (by omega)
            (List.mem_of_ne_of_mem (fun he => hac he.symm) hc)
            (fun hmem => hac (List.mem_singleton.mp hmem).symm)
            (blkUpd_stack henv gd gh st) hv2 hmm2 hmt2
          refine ⟨st2, ?_, ?_⟩
          · rw [← h.1, hb]
            rw [show (((if false then [Instr.elsev] else []) ++
                  callBlkBody gd gh tg2 (hashId (nameOf a))) ++ r.1) ++ Instr.elsev ::
                  Instr.i64const (toU64 SYNC_CALL_UNKNOWN_FUNCTION) :: Instr.retv ::
                  (List.replicate M Instr.endv ++ K)
                = callBlkBody gd gh tg2 (hashId (nameOf a)) ++
                    (r.1 ++ Instr.elsev ::
                      Instr.i64const (toU64 SYNC_CALL_UNKNOWN_FUNCTION) :: Instr.retv ::
                      (List.replicate M Instr.endv ++ K)) by simp]
            rw [callBlkBody_run_mismatch henv gd gh tg2 (hashId (nameOf a)) h1 h2 h3 h4
              (r.1 ++ Instr.elsev ::
                Instr.i64const (toU64 SYNC_CALL_UNKNOWN_FUNCTION) :: Instr.retv ::
                (List.replicate M Instr.endv ++ K)) st hstk hv hmma]
            exact heq
          · rw [blkUpd_locals henv gd gh st 0 (by decide) (by decide),
              blkUpd_locals henv gd gh st 1 (by decide) (by decide),
              blkUpd_locals henv gd gh st 2 (by decide) (by decide)] at hev
            exact hev

/-- Shape of the sync-call dispatch chain when the emitted test count is
positive. -/
theorem createCallDispatch_eq (env : LinkEnv) (hashId : String → Nat)
    (r : List Instr × Nat)
    (hch : callChainGo env hashId [] false (env.objs.flatMap (fun o => o.calls)) = .ok r)
    (hcnt : r.2 ≠ 0) :
    createCallDispatch env hashId = .ok (r.1 ++
      [Instr.elsev, .i64const (toU64 SYNC_CALL_UNKNOWN_FUNCTION), .retv] ++
      List.replicate r.2 Instr.endv) := by
  unfold createCallDispatch
  rw [hch]
  dsimp only
  rw [if_neg hcnt]

/-- Shape of the synthesized `sync_call` body for a minimal configuration:
no ctors call, no canary, no destructor. -/
theorem createCallDispatchFunction_minimal (env : LinkEnv) (hashId : String → Nat)
    (cIdx : Nat) (r : List Instr × Nat)
    (hcf : env.findF "eosio_set_contract_name" = some cIdx)
    (hctors : env.findF "__wasm_call_ctors" = none)
    (hdtors : env.findF "__cxa_finalize" = none)
    (hsc : env.stackCanary = false)
    (hch : callChainGo env hashId [] false (env.objs.flatMap (fun o => o.calls)) = .ok r)
    (hcnt : r.2 ≠ 0) :
    createCallDispatchFunction env hashId = .ok
      { localDecls := [(2, 0x7f)],
        code := [Instr.getLocal 1, .call cIdx] ++
          (r.1 ++ [Instr.elsev, .i64const (toU64 SYNC_CALL_UNKNOWN_FUNCTION), .retv] ++
            List.replicate r.2 Instr.endv) ++
          [Instr.i64const (toU64 SYNC_CALL_EXECUTED), Instr.endv] } := by
  have hif : (if env.stackCanary then canaryProlog env else Except.ok []) = Except.ok [] := by
    rw [hsc]
    simp
  have hif2 : (if env.stackCanary then canaryEpilog env else Except.ok []) = Except.ok [] := by
    rw [hsc]
    simp
  unfold createCallDispatchFunction
  rw [hcf, hctors, hif, createCallDispatch_eq env hashId r hch hcnt, hif2, hdtors]
  simp

/--
C3: whenever the sync-call dispatcher is synthesized (in the hook-free
configuration), the emitted `sync_call` body returns
`SYNC_CALL_UNSUPPORTED_HEADER_VERSION` (-10000) when the 32-bit value
loaded from the header at offset 0 is non-zero, returns
`SYNC_CALL_UNKNOWN_FUNCTION` (-10001) when the 64-bit function name loaded
from the header at offset 8 matches none of the registered call names, and
falls through to return `SYNC_CALL_EXECUTED` (0) after a matching call
target has been invoked with `(sender, receiver, data_size, data)`.
-/
theorem claim_C3_sync_call_returns (env : LinkEnv) (hashId : String → Nat)
    (cIdx gd gh : Nat)
    (hcf : env.findF "eosio_set_contract_name" = some cIdx)
    (hctors : env.findF "__wasm_call_ctors" = none)
    (hdtors : env.findF "__cxa_finalize" = none)
    (hsc : env.stackCanary = false)
    (hgd : env.findF "__eos_get_sync_call_data_" = some gd)
    (hgh : env.findF "__eos_get_sync_call_data_header_" = some gh) :
    ∀ body, createCallDispatchFunction env hashId = .ok body →
    ∀ (henv : HostEnv) (st : St),
    henv.arity cIdx = 1 → henv.hasRet cIdx = false →
    henv.arity gd = 1 → henv.hasRet gd = true →
    henv.arity gh = 1 → henv.hasRet gh = true →
    st.stack = [] →
    ((w32 (st.mem (w64 (henv.ret gh [w64 (henv.ret gd [st.locals 2])]))) ≠ 0 →
      ∃ st2, exec henv body.code .run st
        = .done (some (toU64 SYNC_CALL_UNSUPPORTED_HEADER_VERSION)) st2) ∧
     (w32 (st.mem (w64 (henv.ret gh [w64 (henv.ret gd [st.locals 2])]))) = 0 →
      (∀ c ∈ env.objs.flatMap (fun o => o.calls),
        w64 (st.mem (w32 (w64 (henv.ret gh [w64 (henv.ret gd [st.locals 2])]) + 8)))
          ≠ w64 (hashId (nameOf c))) →
      ∃ st2, exec henv body.code .run st
        = .done (some (toU64 SYNC_CALL_UNKNOWN_FUNCTION)) st2) ∧
     (∀ (c : String) (tgt : Nat),
      w32 (st.mem (w64 (henv.ret gh [w64 (henv.ret gd [st.locals 2])]))) = 0 →
      c ∈ env.objs.flatMap (fun o => o.calls) →
      (∀ x ∈ env.objs.flatMap (fun o => o.calls), x ≠ c →
        w64 (st.mem (w32 (w64 (henv.ret gh [w64 (henv.ret gd [st.locals 2])]) + 8)))
          ≠ w64 (hashId (nameOf x))) →
      w64 (st.mem (w32 (w64 (henv.ret gh [w64 (henv.ret gd [st.locals 2])]) + 8)))
        = w64 (hashId (nameOf c)) →
      env.findF (fnOf c) = some tgt →
      henv.arity tgt = 4 → henv.hasRet tgt = false →
      ∃ st2, exec henv body.code .run st
          = .done (some (toU64 SYNC_CALL_EXECUTED)) st2 ∧
        Event.call tgt [st.locals 0, st.locals 1, st.locals 2,
          w64 (henv.ret gd [st.locals 2])] ∈ st2.events)) := by
  intro body hok henv st hc1 hc2 hg1 hg2 hh1 hh2 hstk
  have hif : (if env.stackCanary then canaryProlog env else Except.ok []) = Except.ok [] := by
    rw [hsc]
    simp
  cases hch0 : callChainGo env hashId [] false (env.objs.flatMap (fun o => o.calls)) with
  | error e =>
    exfalso
    have hact : createCallDispatch env hashId = .error e := by
      unfold createCallDispatch
      rw [hch0]
    unfold createCallDispatchFunction at hok
    rw [hcf, hif, hact] at hok
    exact absurd hok (by simp)
  | ok r =>
    by_cases hcnt : r.2 = 0
    · exfalso
      have hact : createCallDispatch env hashId
          = .error "wasm_ld internal error: call_cnt must be greater than 0" := by
        unfold createCallDispatch
        rw [hch0]
        dsimp only
        rw [if_pos hcnt]
      unfold createCallDispatchFunction at hok
      rw [hcf, hif, hact] at hok
      exact absurd hok (by simp)
    · have hfn := createCallDispatchFunction_minimal env hashId cIdx r hcf hctors hdtors
        hsc hch0 hcnt
      rw [hok] at hfn
      have hbody := Except.ok.inj hfn
      subst hbody
      obtain ⟨stk, lcl, glb, mm, evs⟩ := st
      simp only at hstk
      subst hstk
      refine ⟨?_, ?_, ?_⟩
      · intro hv
        simp only at hv
        cases hl : env.objs.flatMap (fun o => o.calls) with
        | nil =>
          rw [hl] at hch0
          simp only [callChainGo, Except.ok.injEq] at hch0
          rw [← hch0] at hcnt
          exact absurd rfl hcnt
        | cons a as =>
          rw [hl] at hch0
          unfold callChainGo at hch0
          rw [if_neg (List.not_mem_nil a)] at hch0
          cases hblk : callBlk env hashId a false with
          | error e => rw [hblk] at hch0; exact absurd hch0 (by simp)
          | ok blk =>
            rw [hblk] at hch0
            cases hrest : callChainGo env hashId [a] true as with
            | error e => rw [hrest] at hch0; exact absurd hch0 (by simp)
            | ok r2 =>
              rw [hrest] at hch0
              simp only [Except.ok.injEq] at hch0
              have hch1 : r.1 = blk ++ r2.1 := by rw [← hch0]
              obtain ⟨tgt, htgt, hlt, hb⟩ :=
                callBlk_inv env hashId a false gd gh blk hgd hgh hblk
              exact ⟨_, by
                show exec henv ([Instr.getLocal 1, .call cIdx] ++
                  (r.1 ++ [Instr.elsev, .i64const (toU64 SYNC_CALL_UNKNOWN_FUNCTION),
                    .retv] ++ List.replicate r.2 Instr.endv) ++
                  [Instr.i64const (toU64 SYNC_CALL_EXECUTED), Instr.endv]) .run
                  ⟨[], lcl, glb, mm, evs⟩ = _
                rw [hch1, hb]
                trans (exec henv (callBlkBody gd gh tgt (hashId (nameOf a)) ++
                  (r2.1 ++ (Instr.elsev :: Instr.i64const (toU64 SYNC_CALL_UNKNOWN_FUNCTION)
                    :: Instr.retv :: (List.replicate r.2 Instr.endv ++
                      [Instr.i64const (toU64 SYNC_CALL_EXECUTED), Instr.endv])))) .run
                  ⟨[], lcl, glb, mm, evs ++ [Event.call cIdx [lcl 1]]⟩)
                · simp [exec, hc1, hc2]
                · rw [callBlkBody_run_version henv gd gh tgt (hashId (nameOf a))
                    hg1 hg2 hh1 hh2 _ ⟨[], lcl, glb, mm, evs ++ [Event.call cIdx [lcl 1]]⟩
                    rfl hv]⟩
      · intro hv hmism
        simp only at hv hmism
        obtain ⟨st2, heq, f1, f2, f3, f4, f5⟩ :=
          callChain_run_mismatch env hashId henv gd gh hgd hgh hg1 hg2 hh1 hh2
            (env.objs.flatMap (fun o => o.calls)) r.1 r.2 hch0 hcnt
            (Instr.i64const (toU64 SYNC_CALL_UNKNOWN_FUNCTION) :: Instr.retv ::
              (List.replicate r.2 Instr.endv ++
                [Instr.i64const (toU64 SYNC_CALL_EXECUTED), Instr.endv]))
            ⟨[], lcl, glb, mm, evs ++ [Event.call cIdx [lcl 1]]⟩ rfl hv hmism
        have hx : w64 (toU64 SYNC_CALL_UNKNOWN_FUNCTION)
            = toU64 SYNC_CALL_UNKNOWN_FUNCTION := by decide
        refine ⟨{ st2 with stack := toU64 SYNC_CALL_UNKNOWN_FUNCTION :: st2.stack }, ?_⟩
        show exec henv ([Instr.getLocal 1, .call cIdx] ++
          (r.1 ++ [Instr.elsev, .i64const (toU64 SYNC_CALL_UNKNOWN_FUNCTION),
            .retv] ++ List.replicate r.2 Instr.endv) ++
          [Instr.i64const (toU64 SYNC_CALL_EXECUTED), Instr.endv]) .run
          ⟨[], lcl, glb, mm, evs⟩ = _
        trans (exec henv (r.1 ++ Instr.elsev ::
          (Instr.i64const (toU64 SYNC_CALL_UNKNOWN_FUNCTION) :: Instr.retv ::
            (List.replicate r.2 Instr.endv ++
              [Instr.i64const (toU64 SYNC_CALL_EXECUTED), Instr.endv]))) .run
          ⟨[], lcl, glb, mm, evs ++ [Event.call cIdx [lcl 1]]⟩)
        · simp [exec, hc1, hc2]
        · rw [heq]
          simp [exec, hx]
      · intro c tgt hv hc hmism hmt htc h5 h6
        simp only at hv hmism hmt
        obtain ⟨st2, heq, hev⟩ :=
          callChain_run_match env hashId henv gd gh c tgt hgd hgh hg1 hg2 hh1 hh2
            htc h5 h6 (env.objs.flatMap (fun o => o.calls)) r.1 r.2 hch0 r.2
            [Instr.i64const (toU64 SYNC_CALL_EXECUTED), Instr.endv]
            ⟨[], lcl, glb, mm, evs ++ [Event.call cIdx [lcl 1]]⟩ (le_refl r.2) hc
            rfl hv hmism hmt
        have hz : w64 (toU64 SYNC_CALL_EXECUTED) = toU64 SYNC_CALL_EXECUTED := by decide
        refine ⟨{ st2 with stack := toU64 SYNC_CALL_EXECUTED :: st2.stack }, ?_, ?_⟩
        · show exec henv ([Instr.getLocal 1, .call cIdx] ++
            (r.1 ++ [Instr.elsev, .i64const (toU64 SYNC_CALL_UNKNOWN_FUNCTION),
              .retv] ++ List.replicate r.2 Instr.endv) ++
            [Instr.i64const (toU64 SYNC_CALL_EXECUTED), Instr.endv]) .run
            ⟨[], lcl, glb, mm, evs⟩ = _
          trans (exec henv (r.1 ++ Instr.elsev ::
            Instr.i64const (toU64 SYNC_CALL_UNKNOWN_FUNCTION) :: Instr.retv ::
            (List.replicate r.2 Instr.endv ++
              [Instr.i64const (toU64 SYNC_CALL_EXECUTED), Instr.endv])) .run
            ⟨[], lcl, glb, mm, evs ++ [Event.call cIdx [lcl 1]]⟩)
          · simp [exec, hc1, hc2]
          · rw [heq]
            simp [exec, hz]
        · exact hev

/-- Witness: on the concrete link `envC3` (one call `foo:do_foo`) the
synthesized `sync_call` body returns -10000 on a bad header version,
-10001 on an unknown function name, and 0 after dispatching to `do_foo`. -/
theorem claim_C3_sync_call_returns_witness :
    ∃ body, createCallDispatchFunction envC3 string_to_name = Except.ok body ∧
      (∃ s1, exec henvC3 body.code .run stC3v
        = .done (some (toU64 SYNC_CALL_UNSUPPORTED_HEADER_VERSION)) s1) ∧
      (∃ s2, exec henvC3 body.code .run stC3u
        = .done (some (toU64 SYNC_CALL_UNKNOWN_FUNCTION)) s2) ∧
      (∃ s3, exec henvC3 body.code .run stC3m
          = .done (some (toU64 SYNC_CALL_EXECUTED)) s3 ∧
        Event.call 7 [0, 0, 0, 100] ∈ s3.events) := by
  obtain ⟨body, hok⟩ :
      ∃ b, createCallDispatchFunction envC3 string_to_name = Except.ok b := ⟨_, rfl⟩
  have h := claim_C3_sync_call_returns envC3 string_to_name 5 8 9
    rfl rfl rfl rfl rfl rfl body hok henvC3
  obtain ⟨s1, h1⟩ := (h stC3v rfl rfl rfl rfl rfl rfl rfl).1 (by decide)
  obtain ⟨s2, h2⟩ := (h stC3u rfl rfl rfl rfl rfl rfl rfl).2.1 (by decide) (by decide)
  obtain ⟨s3, h3, hev⟩ := (h stC3m rfl rfl rfl rfl rfl rfl rfl).2.2 "foo:do_foo" 7
    (by decide) (by decide) (by decide) (by decide) rfl rfl rfl
  exact ⟨body, hok, ⟨s1, h1⟩, ⟨s2, h2⟩, ⟨s3, h3, hev⟩⟩

end CdtLld
